import Mathlib

/-!
Verification of the LUDO_SERVER realtime game coordinator (src/server.js).

The Lean definitions below are a shallow embedding of the in-memory
(non-Redis) path of the server: JavaScript `Map`s become association lists in
insertion order (JS `Map` iterates and replaces in insertion order), mutation
of the objects held in those maps becomes functional update of the matching
entry, `setTimeout` handles become explicit `Scheduled` values carrying their
delay in milliseconds, and `socket.emit` / `io.to(room).emit` /
`socket.to(room).emit` become `Emission` values tagged with their target.
Client-supplied JSON numbers are embedded as `Int`; server-assigned indices
(peer ids, turn cursor) are `Nat`.  Timestamp fields (`createdAt`,
`joinedAt`, move `timestamp`, `last_update`) carry no claim-relevant
information and are omitted from the records.
-/

/-- PLAYER_STATUS constants: PLAYING(0), WIN(1), LEFT(2), TIMEOUT(3). -/
inductive PlayerStatus where
  | playing
  | win
  | left
  | timeout
deriving DecidableEq, Repr

/-- GAME_STATUS constants: waiting / playing / finished. -/
inductive GameStatus where
  | waiting
  | playing
  | finished
deriving DecidableEq, Repr

/-- One entry of `room.gameData.moves` (the `timestamp` field is omitted). -/
structure Move where
  peerId : Int
  tokenId : Int
  tokenValue : Int
deriving DecidableEq, Repr

/-- `room.gameData`. -/
structure GameData where
  lastDice : Int
  moves : List Move
deriving DecidableEq, Repr

/-- A seated player, as built by `createPlayer` (the `joinedAt` timestamp is
omitted).  `socketId` stands for the socket.io socket id string; an opaque
numeric handle is enough for the embedding. -/
structure Player where
  userId : String
  userName : String
  peerId : Nat
  socketId : Nat
  status : PlayerStatus
  numoftimeout : Nat
deriving DecidableEq, Repr

/-- A room, as built by `createRoom`.  `turnTimer` is `true` when a turn
timer handle is armed and `false` when the field is null (`createdAt`
omitted). -/
structure Room where
  roomId : String
  hostUserId : String
  betAmount : Int
  maxPlayers : Nat
  status : GameStatus
  players : List Player
  currentTurn : Nat
  turnTimer : Bool
  gameData : GameData
deriving DecidableEq, Repr

/-- A stored user record (in-memory `users` map value; `fcmToken` and
`createdAt` omitted). -/
structure User where
  userName : String
  coins : Int
  winCount : Nat
  lostCount : Nat
  level : Nat
  totalGamesPlayed : Nat
deriving DecidableEq, Repr

/-- One entry of the `results` array built by `calculateGameResults`. -/
structure GameResult where
  userName : String
  userId : String
  winningCoin : Int
  playerRank : Nat
  playerStatus : PlayerStatus
deriving DecidableEq, Repr

/-- Addressing mode of an outbound emission: `socket.emit` (sender only),
`io.to(roomId).emit` (whole room), `socket.to(roomId).emit` (room minus
sender). -/
inductive Target where
  | sender
  | room
  | peers
deriving DecidableEq, Repr

/-- Outbound event vocabulary (payloads restricted to the fields the server
actually sends; the display-only `userdata` array of `game_start` and the
roster snapshot of `previous_room_data` are omitted). -/
inductive OutMsg where
  | authToken (token : String)
  | errorMsg (message : String)
  | insufficientCoins (required current : Int)
  | friendErrorResponse (message : String)
  | friendRoomCode (code : String)
  | playerJoined (peerId : Nat) (userName : String) (playerCount maxPlayers : Nat)
  | gameStart (roomId : String) (roomCoin : Int)
  | diceRecieved (peerId diceFace : Int)
  | tokenRecieved (peerId tokenId tokenValue diceFace : Int)
  | turnChanged (peerId : Nat)
  | userTimeoutCounter (peerId numoftimeout : Nat)
  | userTimeout (peerId : Nat)
  | winGameMsg (peerId : Int)
  | gameOver (results : List GameResult)
  | previousRoomData (roomId : String) (peerId turnId : Nat)
  | roomNotFound (message : String)
  | leaveRoomMsg (peerId : Int)
deriving DecidableEq, Repr

/-- An outbound emission: target plus message. -/
structure Emission where
  target : Target
  msg : OutMsg
deriving DecidableEq, Repr

/-- A `setTimeout` registration made by a handler, with its delay in
milliseconds: the 2000 ms delayed settlement after an auto-win, the 10000 ms
room deletion after `game_over`, and the 30000 ms disconnect grace timer
(which captures room id, user id, peer id and the departed socket id). -/
inductive Scheduled where
  | settleGameOver (roomId : String) (delayMs : Nat)
  | deleteRoom (roomId : String) (delayMs : Nat)
  | graceTimer (roomId userId : String) (peerId socketId : Nat) (delayMs : Nat)
deriving DecidableEq, Repr

/-- Turn-timer side effects of a handler: `clearTurnTimer(room)` /
`startTurnTimer(room)`. -/
inductive TimerEff where
  | clearTurn (roomId : String)
  | startTurn (roomId : String)
deriving DecidableEq, Repr

/-- The in-memory `users` map: userId to record, in insertion order. -/
abbrev Users := List (String × User)

/-- `users.get(userId)`. -/
def usersGet (m : Users) (uid : String) : Option User :=
  (m.find? (fun kv => decide (kv.1 = uid))).map (fun kv => kv.2)

/-- `users.set(userId, u)`: replace the existing entry in place, else
append (JS `Map.set` keeps insertion order on overwrite). -/
def usersSet (m : Users) (uid : String) (u : User) : Users :=
  match m with
  | [] => [(uid, u)]
  | kv :: rest =>
    if kv.1 = uid then (uid, u) :: rest else kv :: usersSet rest uid u

/-- `rooms.get(roomId)` over the rooms map in insertion order. -/
def roomsGet (rooms : List Room) (rid : String) : Option Room :=
  rooms.find? (fun r => decide (r.roomId = rid))

/-- In-place mutation of the room object stored under `rid` (JS object
aliasing: the map entry and every reference to it see the update). -/
def roomsUpdate (rooms : List Room) (rid : String) (f : Room → Room) : List Room :=
  match rooms with
  | [] => []
  | r :: rs => if r.roomId = rid then f r :: rs else r :: roomsUpdate rs rid f

/-- `rooms.set(roomId, room)`: replace or append. -/
def roomsSet (rooms : List Room) (rid : String) (room : Room) : List Room :=
  match rooms with
  | [] => [room]
  | r :: rs => if r.roomId = rid then room :: rs else r :: roomsSet rs rid room

/-- `rooms.delete(roomId)`. -/
def roomsDelete (rooms : List Room) (rid : String) : List Room :=
  match rooms with
  | [] => []
  | r :: rs => if r.roomId = rid then rs else r :: roomsDelete rs rid

/-- src/server.js `createRoom(roomId, hostUserId, betAmount, playerCount)`. -/
def createRoom (roomId hostUserId : String) (betAmount : Int) (playerCount : Nat) : Room :=
  { roomId := roomId
    hostUserId := hostUserId
    betAmount := betAmount
    maxPlayers := playerCount
    status := GameStatus.waiting
    players := []
    currentTurn := 0
    turnTimer := false
    gameData := { lastDice := 0, moves := [] } }

/-- src/server.js `createPlayer(userId, userName, peerId, socketId)`. -/
def createPlayer (userId userName : String) (peerId socketId : Nat) : Player :=
  { userId := userId
    userName := userName
    peerId := peerId
    socketId := socketId
    status := PlayerStatus.playing
    numoftimeout := 0 }

/-- The matching predicate of `findAvailableRoom`: waiting status, exact bet
and size match, and a free seat. -/
def availablePred (betAmount : Int) (playerCount : Nat) (room : Room) : Bool :=
  decide (room.status = GameStatus.waiting) &&
  decide (room.betAmount = betAmount) &&
  decide (room.maxPlayers = playerCount) &&
  decide (room.players.length < playerCount)

/-- src/server.js `findAvailableRoom(betAmount, playerCount)`: first match in
map insertion order, null (`none`) when no room qualifies. -/
def findAvailableRoom (rooms : List Room) (betAmount : Int) (playerCount : Nat) : Option Room :=
  rooms.find? (availablePred betAmount playerCount)

/-- The scan loop of `getNextTurn`: starting at `idx`, up to `fuel`
attempts, return the first index holding a PLAYING player, stepping by
`(idx + 1) % players.length`. -/
def nextTurnLoop (players : List Player) : Nat → Nat → Option Nat
  | _, 0 => none
  | idx, fuel + 1 =>
    match players.get? idx with
    | some p =>
      if p.status = PlayerStatus.playing then some idx
      else nextTurnLoop players ((idx + 1) % players.length) fuel
    | none => nextTurnLoop players ((idx + 1) % players.length) fuel

/-- src/server.js `getNextTurn(room)`: `-1` is embedded as `none`.  The
pre-check counts PLAYING-or-WIN players; the loop then scans at most
`players.length` positions from `(currentTurn + 1) % players.length` for the
first PLAYING player. -/
def getNextTurn (room : Room) : Option Nat :=
  let activePlayers := room.players.filter (fun p =>
    decide (p.status = PlayerStatus.playing) || decide (p.status = PlayerStatus.win))
  if activePlayers.length = 0 then none
  else nextTurnLoop room.players ((room.currentTurn + 1) % room.players.length)
    room.players.length

/-- The sort step of `calculateGameResults`.  JS `Array.prototype.sort` is
stable, and the comparator returns -1/1 only to separate WIN from non-WIN
players, so the stable sort is exactly the order-preserving partition
putting WIN players first. -/
def sortWinFirst (ps : List Player) : List Player :=
  ps.filter (fun p => decide (p.status = PlayerStatus.win)) ++
  ps.filter (fun p => decide (¬ p.status = PlayerStatus.win))

/-- The `winning_coin` computation of `calculateGameResults` for one sorted
entry: rank is the 1-based sorted position; WIN in a 2-player room pays
`2 × bet`; WIN in a 4-player room pays `3 × bet` at rank 1 and `bet` at
rank 2; everything else pays 0. -/
def winningCoinFor (betAmount : Int) (maxPlayers : Nat) (rank : Nat)
    (status : PlayerStatus) : Int :=
  if status = PlayerStatus.win then
    if maxPlayers = 2 then betAmount * 2
    else if maxPlayers = 4 then
      if rank = 1 then betAmount * 3
      else if rank = 2 then betAmount
      else 0
    else 0
  else 0

/-- The indexed `.map((player, index) => …)` of `calculateGameResults`,
written as a recursion carrying the running index `i` (the entry built at
`i` has `player_rank = i + 1`). -/
def resultsFrom (betAmount : Int) (maxPlayers : Nat) : Nat → List Player → List GameResult
  | _, [] => []
  | i, p :: ps =>
    { userName := p.userName
      userId := p.userId
      winningCoin := winningCoinFor betAmount maxPlayers (i + 1) p.status
      playerRank := i + 1
      playerStatus := p.status } :: resultsFrom betAmount maxPlayers (i + 1) ps

/-- src/server.js `calculateGameResults(room)`. -/
def calculateGameResults (room : Room) : List GameResult :=
  resultsFrom room.betAmount room.maxPlayers 0 (sortWinFirst room.players)

/-- src/server.js `updatePlayerCoinsAndStats(room, results)` on the
in-memory store: per result, look the user up (skip when absent), credit
`winning_coin`, bump `totalGamesPlayed`, then bump `winCount` and recompute
`level = floor(1 + winCount / 10)` for WIN entries and bump `lostCount`
otherwise, and write the record back. -/
def updatePlayerCoinsAndStats (users : Users) (results : List GameResult) : Users :=
  results.foldl (fun us r =>
    match usersGet us r.userId with
    | none => us
    | some u =>
      let u1 : User :=
        { u with coins := u.coins + r.winningCoin
                 totalGamesPlayed := u.totalGamesPlayed + 1 }
      let u2 : User :=
        if r.playerStatus = PlayerStatus.win then
          { u1 with winCount := u1.winCount + 1, level := 1 + (u1.winCount + 1) / 10 }
        else
          { u1 with lostCount := u1.lostCount + 1 }
      usersSet us r.userId u2) users

/-- The seating tail shared by `request_join`'s two branches: append the new
player with `peerId = players.length`; when the roster becomes full, flip
the room to PLAYING with `currentTurn = 0`, emit `game_start` to the room
and arm the turn timer (`startTurnTimer`). -/
def joinSeat (room : Room) (userId userName : String) (socketId : Nat) :
    Room × List Emission :=
  let player := createPlayer userId userName room.players.length socketId
  let room1 : Room := { room with players := room.players ++ [player] }
  if room1.players.length = room1.maxPlayers then
    let room2 : Room :=
      { room1 with status := GameStatus.playing, currentTurn := 0, turnTimer := true }
    (room2, [⟨Target.room, OutMsg.gameStart room2.roomId room2.betAmount⟩])
  else
    (room1, [])

/-- Inbound payload of `request_join` and `friend_create_room`
(`room_coin_value` / `room_players_size`; `room_code` is only read by
`friend_create_room`, `none` embeds an absent or falsy value). -/
structure JoinPayload where
  userId : String
  userName : String
  roomCoinValue : Int
  roomPlayersSize : Nat
  roomCode : Option String
deriving DecidableEq, Repr

/-- src/server.js `request_join` handler on the in-memory store.
`freshRoomId` stands for the `uuidv4()` minted when no waiting room
matches.  Order of the source: load user / `error` when absent;
`insufficient_coins` when `coins < bet`; deduct and save; find or create a
room; seat (and start the game when the roster fills). -/
def requestJoin (users : Users) (rooms : List Room) (socketId : Nat)
    (freshRoomId : String) (p : JoinPayload) :
    Users × List Room × List Emission :=
  match usersGet users p.userId with
  | none => (users, rooms, [⟨Target.sender, OutMsg.errorMsg "User not found"⟩])
  | some user =>
    if user.coins < p.roomCoinValue then
      (users, rooms,
        [⟨Target.sender, OutMsg.insufficientCoins p.roomCoinValue user.coins⟩])
    else
      let users1 := usersSet users p.userId
        { user with coins := user.coins - p.roomCoinValue }
      match findAvailableRoom rooms p.roomCoinValue p.roomPlayersSize with
      | some room =>
        let seated := joinSeat room p.userId p.userName socketId
        (users1, roomsUpdate rooms room.roomId (fun _ => seated.1), seated.2)
      | none =>
        let room := createRoom freshRoomId p.userId p.roomCoinValue p.roomPlayersSize
        let seated := joinSeat room p.userId p.userName socketId
        (users1, rooms ++ [seated.1], seated.2)

/-- src/server.js `friend_create_room` handler.  Reads the in-memory `users`
map directly; the deduction mutates the stored user object (aliasing), so it
persists without an explicit `users.set`.  `freshCode` stands for
`uuidv4().substring(0, 6).toUpperCase()` used when `room_code` is falsy.
The room is registered with `rooms.set` (overwriting any room under the same
code) and the creator is seated as peer 0; no full-roster check runs here. -/
def friendCreateRoom (users : Users) (rooms : List Room) (socketId : Nat)
    (freshCode : String) (p : JoinPayload) :
    Users × List Room × List Emission :=
  match usersGet users p.userId with
  | none => (users, rooms, [⟨Target.sender, OutMsg.friendErrorResponse "User not found"⟩])
  | some user =>
    if user.coins < p.roomCoinValue then
      (users, rooms,
        [⟨Target.sender, OutMsg.insufficientCoins p.roomCoinValue user.coins⟩])
    else
      let users1 := usersSet users p.userId
        { user with coins := user.coins - p.roomCoinValue }
      let roomId := p.roomCode.getD freshCode
      let room0 := createRoom roomId p.userId p.roomCoinValue p.roomPlayersSize
      let room1 : Room :=
        { room0 with players := [createPlayer p.userId p.userName 0 socketId] }
      (users1, roomsSet rooms roomId room1,
        [⟨Target.sender, OutMsg.friendRoomCode roomId⟩])

/-- Inbound payload of `friend_join_room`. -/
structure FriendJoinPayload where
  userId : String
  userName : String
  roomCode : String
deriving DecidableEq, Repr

/-- src/server.js `friend_join_room` handler.  Source order, kept verbatim:
room lookup (`Room not found`), full-roster check (`Room is full`), user
lookup (`User not found`), coin check (`insufficient_coins`), **coin
deduction**, and only then the `status !== WAITING` check (`Game already
started`) — so that last refusal leaves the deduction in place without
seating the player.  On success the player is seated, `player_joined` goes
to the room, and a now-full roster starts the game (this handler emits
`game_start` but does not call `startTurnTimer`). -/
def friendJoinRoom (users : Users) (rooms : List Room) (socketId : Nat)
    (p : FriendJoinPayload) : Users × List Room × List Emission :=
  match roomsGet rooms p.roomCode with
  | none => (users, rooms, [⟨Target.sender, OutMsg.friendErrorResponse "Room not found"⟩])
  | some room =>
    if room.maxPlayers ≤ room.players.length then
      (users, rooms, [⟨Target.sender, OutMsg.friendErrorResponse "Room is full"⟩])
    else
      match usersGet users p.userId with
      | none =>
        (users, rooms, [⟨Target.sender, OutMsg.friendErrorResponse "User not found"⟩])
      | some user =>
        if user.coins < room.betAmount then
          (users, rooms,
            [⟨Target.sender, OutMsg.insufficientCoins room.betAmount user.coins⟩])
        else
          let users1 := usersSet users p.userId
            { user with coins := user.coins - room.betAmount }
          if ¬ room.status = GameStatus.waiting then
            (users1, rooms,
              [⟨Target.sender, OutMsg.friendErrorResponse "Game already started"⟩])
          else
            let player := createPlayer p.userId p.userName room.players.length socketId
            let room1 : Room := { room with players := room.players ++ [player] }
            let joinedMsg : Emission :=
              ⟨Target.room,
                OutMsg.playerJoined player.peerId p.userName room1.players.length
                  room1.maxPlayers⟩
            if room1.players.length = room1.maxPlayers then
              let room2 : Room :=
                { room1 with status := GameStatus.playing, currentTurn := 0 }
              (users1, roomsUpdate rooms p.roomCode (fun _ => room2),
                [joinedMsg, ⟨Target.room, OutMsg.gameStart room2.roomId room2.betAmount⟩])
            else
              (users1, roomsUpdate rooms p.roomCode (fun _ => room1), [joinedMsg])

/-- Inbound payload of `dice_send`. -/
structure DicePayload where
  roomId : String
  peerId : Int
  diceFace : Int
deriving DecidableEq, Repr

/-- Inbound payload of `token_send` and `token_reset`. -/
structure TokenPayload where
  roomId : String
  peerId : Int
  tokenId : Int
  tokenValue : Int
deriving DecidableEq, Repr

/-- src/server.js `dice_send` handler: unknown rooms are dropped; otherwise
(with no room-status check) the turn timer is cleared and restarted,
`gameData.lastDice` is overwritten, and `dice_recieved` goes to the room
minus the sender. -/
def diceSend (rooms : List Room) (p : DicePayload) :
    List Room × List Emission × List TimerEff :=
  match roomsGet rooms p.roomId with
  | none => (rooms, [], [])
  | some _ =>
    (roomsUpdate rooms p.roomId (fun r =>
        { r with turnTimer := true
                 gameData := { r.gameData with lastDice := p.diceFace } }),
      [⟨Target.peers, OutMsg.diceRecieved p.peerId p.diceFace⟩],
      [TimerEff.clearTurn p.roomId, TimerEff.startTurn p.roomId])

/-- src/server.js `token_send` handler: unknown rooms are dropped; otherwise
(again with no status check) the turn timer is cleared and restarted, the
move is appended to `gameData.moves`, and `token_recieved` carrying the
room's current `lastDice` goes to the room minus the sender. -/
def tokenSend (rooms : List Room) (p : TokenPayload) :
    List Room × List Emission × List TimerEff :=
  match roomsGet rooms p.roomId with
  | none => (rooms, [], [])
  | some room =>
    (roomsUpdate rooms p.roomId (fun r =>
        { r with turnTimer := true
                 gameData := { r.gameData with
                   moves := r.gameData.moves ++ [⟨p.peerId, p.tokenId, p.tokenValue⟩] } }),
      [⟨Target.peers,
        OutMsg.tokenRecieved p.peerId p.tokenId p.tokenValue room.gameData.lastDice⟩],
      [TimerEff.clearTurn p.roomId, TimerEff.startTurn p.roomId])

/-- src/server.js `token_reset` handler: no room lookup, no state change, no
timer call — a single `token_recieved` with `dice_face: 0` to the room minus
the sender. -/
def tokenReset (rooms : List Room) (p : TokenPayload) :
    List Room × List Emission × List TimerEff :=
  (rooms,
    [⟨Target.peers, OutMsg.tokenRecieved p.peerId p.tokenId p.tokenValue 0⟩],
    [])

/-- `players.filter(p => p.status === PLAYING).length`, the live-player
count used by `win_game` and the turn-timer callback. -/
def playingCount (ps : List Player) : Nat :=
  (ps.filter (fun q => decide (q.status = PlayerStatus.playing))).length

/-- Number of WIN players in a roster. -/
def numWins (ps : List Player) : Nat :=
  (ps.filter (fun p => decide (p.status = PlayerStatus.win))).length

/-- `room.players[i].status = st` for a JS index: out-of-range (or negative)
indices read `undefined` and the guarded write is skipped. -/
def setStatusAt (ps : List Player) (i : Nat) (st : PlayerStatus) : List Player :=
  match ps.get? i with
  | some p => ps.set i { p with status := st }
  | none => ps

/-- The roster after `win_game` marks `players[peer_id]` WIN (client-supplied
`peer_id`; a negative number indexes nothing in a JS array). -/
def winMarkedPlayers (room : Room) (peerId : Int) : List Player :=
  if peerId < 0 then room.players
  else setStatusAt room.players peerId.toNat PlayerStatus.win

/-- Inbound payload of `win_game` (`player_rank` is only logged). -/
structure WinPayload where
  roomId : String
  peerId : Int
  playerRank : Int
deriving DecidableEq, Repr

/-- src/server.js `win_game` handler: unknown rooms are dropped; otherwise
mark `players[peer_id]` WIN, broadcast `win_game` to the room minus the
sender, and count PLAYING players.  When that count is at most 1: set
FINISHED, clear the turn timer, settle (`calculateGameResults` +
`updatePlayerCoinsAndStats`), emit `game_over` to the room, and schedule the
room's deletion in 10000 ms.  Otherwise only the marking and broadcast
happen. -/
def winGameHandler (users : Users) (rooms : List Room) (p : WinPayload) :
    Users × List Room × List Emission × List Scheduled :=
  match roomsGet rooms p.roomId with
  | none => (users, rooms, [], [])
  | some room =>
    let players1 := winMarkedPlayers room p.peerId
    let winMsg : Emission := ⟨Target.peers, OutMsg.winGameMsg p.peerId⟩
    if playingCount players1 ≤ 1 then
      let room1 : Room :=
        { room with players := players1, status := GameStatus.finished, turnTimer := false }
      let results := calculateGameResults room1
      (updatePlayerCoinsAndStats users results,
        roomsUpdate rooms p.roomId (fun _ => room1),
        [winMsg, ⟨Target.room, OutMsg.gameOver results⟩],
        [Scheduled.deleteRoom p.roomId 10000])
    else
      (users, roomsUpdate rooms p.roomId (fun _ => { room with players := players1 }),
        [winMsg], [])

/-- `room.players.find(p => p.status === PLAYING)` followed by mutating the
found player to WIN: returns the found player (pre-mutation) together with
the roster in which its first PLAYING occurrence is replaced by a WIN
copy. -/
def findMarkWin : List Player → Option (Player × List Player)
  | [] => none
  | p :: ps =>
    if p.status = PlayerStatus.playing then
      some (p, { p with status := PlayerStatus.win } :: ps)
    else
      match findMarkWin ps with
      | some (w, ps1) => some (w, p :: ps1)
      | none => none

/-- The auto-turn-change tail of the turn-timer callback: advance
`currentTurn` via `getNextTurn`, emit `turn_changed` and rearm the timer; or,
with no active player, clear the timer, settle immediately and emit
`game_over`. -/
def autoTurn (users : Users) (room : Room) (es : List Emission) :
    Users × Room × List Emission × List Scheduled :=
  match getNextTurn room with
  | some nextTurn =>
    let room1 : Room := { room with currentTurn := nextTurn, turnTimer := true }
    let turnMsg : List Emission :=
      match room.players.get? nextTurn with
      | some np => [⟨Target.room, OutMsg.turnChanged np.peerId⟩]
      | none => []
    (users, room1, es ++ turnMsg, [])
  | none =>
    let room1 : Room := { room with turnTimer := false }
    let results := calculateGameResults room1
    (updatePlayerCoinsAndStats users results, room1,
      es ++ [⟨Target.room, OutMsg.gameOver results⟩], [])

/-- src/server.js: the `setTimeout` callback installed by
`startTurnTimer(room)`.  Nothing happens unless the player at `currentTurn`
exists and is PLAYING.  Otherwise its `numoftimeout` is bumped and
`user_timeout_counter` emitted; on the third strike the player is marked
TIMEOUT with `user_timeout` emitted, then: exactly one PLAYING player left —
that player is marked WIN, `win_game` is emitted, the timer cleared, the
room set FINISHED and settlement plus `game_over` scheduled 2000 ms later;
zero PLAYING players left — the timer is cleared and settlement plus
`game_over` happen immediately (the room's status is not changed on this
path); two or more left — fall through to the auto turn change, as do the
first two strikes. -/
def turnTimerFire (users : Users) (room : Room) :
    Users × Room × List Emission × List Scheduled :=
  match room.players.get? room.currentTurn with
  | none => (users, room, [], [])
  | some cp =>
    if cp.status = PlayerStatus.playing then
      let cp1 : Player := { cp with numoftimeout := cp.numoftimeout + 1 }
      let ps1 := room.players.set room.currentTurn cp1
      let e1 : List Emission :=
        [⟨Target.room, OutMsg.userTimeoutCounter cp1.peerId cp1.numoftimeout⟩]
      if 3 ≤ cp1.numoftimeout then
        let cp2 : Player := { cp1 with status := PlayerStatus.timeout }
        let ps2 := ps1.set room.currentTurn cp2
        let e2 := e1 ++ [⟨Target.room, OutMsg.userTimeout cp2.peerId⟩]
        let activeCount := playingCount ps2
        if activeCount = 1 then
          match findMarkWin ps2 with
          | some (w, ps3) =>
            let room1 : Room :=
              { room with players := ps3, status := GameStatus.finished, turnTimer := false }
            (users, room1,
              e2 ++ [⟨Target.room, OutMsg.winGameMsg (w.peerId : Int)⟩],
              [Scheduled.settleGameOver room.roomId 2000])
          | none => autoTurn users { room with players := ps2 } e2
        else if activeCount = 0 then
          let room1 : Room := { room with players := ps2, turnTimer := false }
          let results := calculateGameResults room1
          (updatePlayerCoinsAndStats users results, room1,
            e2 ++ [⟨Target.room, OutMsg.gameOver results⟩], [])
        else
          autoTurn users { room with players := ps2 } e2
      else
        autoTurn users { room with players := ps1 } e1
    else
      (users, room, [], [])

/-- src/server.js `disconnect` handler, reduced to its scheduling decision:
when the departing socket had a `currentRoomId` naming an existing room that
still rosters a player bound to this socket, a 30000 ms grace timer is
registered capturing that player's identity and the departed socket id; no
room-status condition is checked. -/
def disconnectSchedule (rooms : List Room) (currentRoomId : Option String)
    (socketId : Nat) : List Scheduled :=
  match currentRoomId with
  | none => []
  | some rid =>
    match roomsGet rooms rid with
    | none => []
    | some room =>
      match room.players.find? (fun q => decide (q.socketId = socketId)) with
      | none => []
      | some pl => [Scheduled.graceTimer rid pl.userId pl.peerId socketId 30000]

/-- Mutation of the first rostered player with the given user id to TIMEOUT
(the grace-timer callback mutates the player object found by user id). -/
def markFirstUserTimeout : List Player → String → List Player
  | [], _ => []
  | q :: qs, uid =>
    if q.userId = uid then { q with status := PlayerStatus.timeout } :: qs
    else q :: markFirstUserTimeout qs uid

/-- src/server.js: the grace-timer callback.  It re-reads the room and the
player (by user id); only when that player's `socketId` still equals the
departed one is the player marked TIMEOUT and `user_timeout` (carrying the
captured peer id) fanned out to the room minus the dead socket. -/
def graceFire (rooms : List Room) (rid userId : String) (origPeerId socketId : Nat) :
    List Room × List Emission :=
  match roomsGet rooms rid with
  | none => (rooms, [])
  | some room =>
    match room.players.find? (fun q => decide (q.userId = userId)) with
    | none => (rooms, [])
    | some cp =>
      if cp.socketId = socketId then
        (roomsUpdate rooms rid (fun r =>
            { r with players := markFirstUserTimeout r.players userId }),
          [⟨Target.peers, OutMsg.userTimeout origPeerId⟩])
      else
        (rooms, [])

/-- Mutation of the first rostered player with the given user id, rebinding
its socket to a new connection. -/
def rebindFirstUser : List Player → String → Nat → List Player
  | [], _, _ => []
  | q :: qs, uid, sid =>
    if q.userId = uid then { q with socketId := sid } :: qs
    else q :: rebindFirstUser qs uid sid

/-- Inbound payload of `get_previous_room`. -/
structure PrevRoomPayload where
  roomId : String
  userId : String
deriving DecidableEq, Repr

/-- src/server.js `get_previous_room` handler: `room_not_found` when the
room is gone or the caller is not rostered; otherwise rebind the player's
socket id to the current connection and emit `previous_room_data` (roster
and game snapshot omitted from the embedded payload). -/
def getPreviousRoom (rooms : List Room) (newSocketId : Nat) (p : PrevRoomPayload) :
    List Room × List Emission :=
  match roomsGet rooms p.roomId with
  | none => (rooms, [⟨Target.sender, OutMsg.roomNotFound "Room not found or expired"⟩])
  | some room =>
    match room.players.find? (fun q => decide (q.userId = p.userId)) with
    | none => (rooms, [⟨Target.sender, OutMsg.roomNotFound "Player not in room"⟩])
    | some player =>
      (roomsUpdate rooms p.roomId (fun r =>
          { r with players := rebindFirstUser r.players p.userId newSocketId }),
        [⟨Target.sender,
          OutMsg.previousRoomData room.roomId player.peerId room.currentTurn⟩])

/-- Sum of `winning_coin` over a results array. -/
def sumWinning (rs : List GameResult) : Int :=
  (rs.map GameResult.winningCoin).sum

/-- A found element splits its list into an unmatched prefix, itself, and a
tail. -/
theorem find?_split {α : Type} (p : α → Bool) (l : List α) (a : α)
    (h : l.find? p = some a) :
    p a = true ∧ ∃ l1 l2, l = l1 ++ a :: l2 ∧ ∀ x ∈ l1, p x = false := by
  induction l with
  | nil => simp [List.find?] at h
  | cons x xs ih =>
    by_cases hpx : p x = true
    · rw [List.find?_cons_of_pos _ hpx] at h
      cases h
      exact ⟨hpx, [], xs, rfl, by simp⟩
    · rw [List.find?_cons_of_neg _ hpx] at h
      obtain ⟨hp, l1, l2, heq, hall⟩ := ih h
      refine ⟨hp, x :: l1, l2, by simp [heq], ?_⟩
      intro y hy
      rcases List.mem_cons.mp hy with hy | hy
      · subst hy
        cases hb : p y
        · rfl
        · exact absurd hb hpx
      · exact hall y hy

/-- Looking a room up after updating it in place sees the updated record,
provided the update keeps the key. -/
theorem roomsGet_update_self (rooms : List Room) (rid : String) (f : Room → Room)
    (room : Room) (h : roomsGet rooms rid = some room) (hf : (f room).roomId = rid) :
    roomsGet (roomsUpdate rooms rid f) rid = some (f room) := by
  induction rooms with
  | nil => simp [roomsGet, List.find?] at h
  | cons r rs ih =>
    by_cases hr : r.roomId = rid
    · have : roomsGet (r :: rs) rid = some r := by
        simp [roomsGet, List.find?_cons_of_pos, hr]
      rw [this] at h
      cases h
      simp [roomsUpdate, hr, roomsGet, List.find?_cons_of_pos, hf]
    · have hstep : roomsGet (r :: rs) rid = roomsGet rs rid := by
        simp [roomsGet, List.find?_cons_of_neg, hr]
      rw [hstep] at h
      have h2 : roomsUpdate (r :: rs) rid f = r :: roomsUpdate rs rid f := by
        simp [roomsUpdate, hr]
      have h3 : roomsGet (r :: roomsUpdate rs rid f) rid =
          roomsGet (roomsUpdate rs rid f) rid := by
        simp [roomsGet, List.find?_cons_of_neg, hr]
      rw [h2, h3]
      exact ih h

/-- A successful room lookup returns a record keyed by the looked-up id. -/
theorem roomsGet_some_id (rooms : List Room) (rid : String) (room : Room)
    (h : roomsGet rooms rid = some room) : room.roomId = rid := by
  have := List.find?_some h
  simpa using this

/-- Looking a user up right after writing it returns the written record. -/
theorem usersGet_set_self (m : Users) (uid : String) (u : User) :
    usersGet (usersSet m uid u) uid = some u := by
  induction m with
  | nil => simp [usersSet, usersGet, List.find?]
  | cons kv rest ih =>
    by_cases hk : kv.1 = uid
    · simp [usersSet, hk, usersGet, List.find?_cons_of_pos]
    · simp only [usersSet, if_neg hk]
      simpa [usersGet, List.find?_cons_of_neg, hk] using ih

/-- Shorthand used by the concrete witnesses below. -/
def mkPlayer (uid : String) (pid sid : Nat) (st : PlayerStatus) : Player :=
  { userId := uid
    userName := uid
    peerId := pid
    socketId := sid
    status := st
    numoftimeout := 0 }

/-- Claim C10: `token_reset` relays a `token_recieved` with `dice_face = 0`
to the room minus the sender and changes nothing: the rooms map (hence every
room's `lastDice` and move log) is returned untouched and no turn-timer call
is made. -/
theorem token_reset_pure_relay (rooms : List Room) (p : TokenPayload) :
    (tokenReset rooms p).1 = rooms ∧
    (tokenReset rooms p).2.1 =
      [⟨Target.peers, OutMsg.tokenRecieved p.peerId p.tokenId p.tokenValue 0⟩] ∧
    (tokenReset rooms p).2.2 = [] :=
  ⟨rfl, rfl, rfl⟩

/-- The stored user and the stale friend room used to exercise the
`friend_join_room` coin bug. -/
def c1User : User :=
  { userName := "Alice"
    coins := 500
    winCount := 0
    lostCount := 0
    level := 1
    totalGamesPlayed := 0 }

/-- A friend room that left WAITING while under capacity (reachable: a
`win_game` for a half-filled friend room flips it to FINISHED with one
rostered player, and it survives in the registry for 10 s). -/
def c1Room : Room :=
  { roomId := "ROOM01"
    hostUserId := "host"
    betAmount := 100
    maxPlayers := 2
    status := GameStatus.finished
    players := [mkPlayer "host" 0 1 PlayerStatus.win]
    currentTurn := 0
    turnTimer := false
    gameData := { lastDice := 0, moves := [] } }

/-- Claim C1 (code bug): `friend_join_room` places its `Game already
started` refusal after the coin deduction, so this join is refused, the
player is never seated (rooms unchanged), and yet the user's coins drop from
500 to 400. -/
theorem friend_join_deducts_before_started_check :
    friendJoinRoom [("u1", c1User)] [c1Room] 9
        { userId := "u1", userName := "Alice", roomCode := "ROOM01" } =
      ([("u1", { c1User with coins := 400 })], [c1Room],
        [⟨Target.sender, OutMsg.friendErrorResponse "Game already started"⟩]) ∧
    (400 : Int) ≠ c1User.coins := by
  constructor
  · rfl
  · decide

/-- The WAITING friend room used to refute claim C4 (its creator already
holds the room code, so it can address `dice_send` / `token_send` at it). -/
def c4Room : Room :=
  { roomId := "FR1"
    hostUserId := "h"
    betAmount := 100
    maxPlayers := 2
    status := GameStatus.waiting
    players := [mkPlayer "h" 0 3 PlayerStatus.playing]
    currentTurn := 0
    turnTimer := false
    gameData := { lastDice := 0, moves := [] } }

/-- Claim C4 counterexample: with the room still WAITING, a `dice_send`
overwrites its `lastDice`, rearms its turn timer and is relayed to peers,
and a `token_send` appends to its move log — the WAITING no-action invariant
is not enforced. -/
theorem waiting_room_dice_processed :
    c4Room.status = GameStatus.waiting ∧
    roomsGet (diceSend [c4Room] { roomId := "FR1", peerId := 0, diceFace := 5 }).1 "FR1" =
      some { c4Room with turnTimer := true
                         gameData := { c4Room.gameData with lastDice := 5 } } ∧
    (diceSend [c4Room] { roomId := "FR1", peerId := 0, diceFace := 5 }).2.1 =
      [⟨Target.peers, OutMsg.diceRecieved 0 5⟩] ∧
    (diceSend [c4Room] { roomId := "FR1", peerId := 0, diceFace := 5 }).2.2 =
      [TimerEff.clearTurn "FR1", TimerEff.startTurn "FR1"] ∧
    roomsGet (tokenSend [c4Room]
        { roomId := "FR1", peerId := 0, tokenId := 1, tokenValue := 7 }).1 "FR1" =
      some { c4Room with turnTimer := true
                         gameData := { c4Room.gameData with
                           moves := [{ peerId := 0, tokenId := 1, tokenValue := 7 }] } } := by
  refine ⟨rfl, ?_, rfl, rfl, ?_⟩ <;> rfl

/-- Claim C4 as amended: `dice_send` and `token_send` are processed for any
existing room with no status guard — whatever the room's status (WAITING
included), `dice_send` overwrites `lastDice`, clears and restarts the turn
timer and relays `dice_recieved` to peers, and `token_send` appends the move,
clears and restarts the timer and relays `token_recieved` carrying the
current `lastDice`; only an unknown `room_id` is dropped. -/
theorem dice_token_ignore_room_status :
    (∀ rooms (p : DicePayload) room, roomsGet rooms p.roomId = some room →
      roomsGet (diceSend rooms p).1 p.roomId =
        some { room with turnTimer := true
                         gameData := { room.gameData with lastDice := p.diceFace } } ∧
      (diceSend rooms p).2.1 = [⟨Target.peers, OutMsg.diceRecieved p.peerId p.diceFace⟩] ∧
      (diceSend rooms p).2.2 = [TimerEff.clearTurn p.roomId, TimerEff.startTurn p.roomId]) ∧
    (∀ rooms (p : TokenPayload) room, roomsGet rooms p.roomId = some room →
      roomsGet (tokenSend rooms p).1 p.roomId =
        some { room with turnTimer := true
                         gameData := { room.gameData with
                           moves := room.gameData.moves ++
                             [{ peerId := p.peerId, tokenId := p.tokenId,
                                tokenValue := p.tokenValue }] } } ∧
      (tokenSend rooms p).2.1 =
        [⟨Target.peers, OutMsg.tokenRecieved p.peerId p.tokenId p.tokenValue
            room.gameData.lastDice⟩] ∧
      (tokenSend rooms p).2.2 = [TimerEff.clearTurn p.roomId, TimerEff.startTurn p.roomId]) ∧
    (∀ rooms (p : DicePayload), roomsGet rooms p.roomId = none →
      diceSend rooms p = (rooms, [], [])) ∧
    (∀ rooms (p : TokenPayload), roomsGet rooms p.roomId = none →
      tokenSend rooms p = (rooms, [], [])) := by
  refine ⟨?_, ?_, ?_, ?_⟩
  · intro rooms p room h
    have hid : room.roomId = p.roomId := roomsGet_some_id _ _ _ h
    refine ⟨?_, by simp [diceSend, h], by simp [diceSend, h]⟩
    simp only [diceSend, h]
    exact roomsGet_update_self rooms p.roomId _ room h (by simpa using hid)
  · intro rooms p room h
    have hid : room.roomId = p.roomId := roomsGet_some_id _ _ _ h
    refine ⟨?_, by simp [tokenSend, h], by simp [tokenSend, h]⟩
    simp only [tokenSend, h]
    exact roomsGet_update_self rooms p.roomId _ room h (by simpa using hid)
  · intro rooms p h
    simp [diceSend, h]
  · intro rooms p h
    simp [tokenSend, h]

/-- Witness for the amended C4 theorem at the concrete WAITING room. -/
theorem dice_token_ignore_room_status_witness :
    roomsGet (diceSend [c4Room] { roomId := "FR1", peerId := 2, diceFace := 6 }).1 "FR1" =
      some { c4Room with turnTimer := true
                         gameData := { c4Room.gameData with lastDice := 6 } } ∧
    (diceSend [c4Room] { roomId := "FR1", peerId := 2, diceFace := 6 }).2.1 =
      [⟨Target.peers, OutMsg.diceRecieved 2 6⟩] ∧
    (diceSend [c4Room] { roomId := "FR1", peerId := 2, diceFace := 6 }).2.2 =
      [TimerEff.clearTurn "FR1", TimerEff.startTurn "FR1"] :=
  dice_token_ignore_room_status.1 [c4Room]
    { roomId := "FR1", peerId := 2, diceFace := 6 } c4Room (by rfl)

/-- Every settlement entry carries exactly the payout of its own 1-based
rank and status. -/
theorem resultsFrom_winningCoin (bet : Int) (mp : Nat) :
    ∀ (ps : List Player) (i : Nat) (r : GameResult), r ∈ resultsFrom bet mp i ps →
      r.winningCoin = winningCoinFor bet mp r.playerRank r.playerStatus := by
  intro ps
  induction ps with
  | nil => intro i r h; simp [resultsFrom] at h
  | cons p ps ih =>
    intro i r h
    rw [resultsFrom] at h
    rcases List.mem_cons.mp h with h | h
    · subst h; rfl
    · exact ih (i + 1) r h

/-- Settlement entries over a roster with no WIN player are all non-WIN and
pay zero. -/
theorem resultsFrom_nonwin (bet : Int) (mp : Nat) :
    ∀ (ps : List Player) (i : Nat),
      (∀ p ∈ ps, ¬ p.status = PlayerStatus.win) →
      ∀ r ∈ resultsFrom bet mp i ps,
        ¬ r.playerStatus = PlayerStatus.win ∧ r.winningCoin = 0 := by
  intro ps
  induction ps with
  | nil => intro i _ r h; simp [resultsFrom] at h
  | cons p ps ih =>
    intro i hall r h
    rw [resultsFrom] at h
    rcases List.mem_cons.mp h with h | h
    · subst h
      have hp : ¬ p.status = PlayerStatus.win := hall p (List.mem_cons_self p ps)
      exact ⟨hp, by simp [winningCoinFor, hp]⟩
    · exact ih (i + 1) (fun q hq => hall q (List.mem_cons_of_mem p hq)) r h

/-- Settlement distributes over a roster split, shifting the running
index. -/
theorem resultsFrom_append (bet : Int) (mp : Nat) :
    ∀ (xs ys : List Player) (i : Nat),
      resultsFrom bet mp i (xs ++ ys) =
        resultsFrom bet mp i xs ++ resultsFrom bet mp (i + xs.length) ys := by
  intro xs
  induction xs with
  | nil => intro ys i; simp [resultsFrom]
  | cons x xs ih =>
    intro ys i
    rw [List.cons_append, resultsFrom, resultsFrom, ih ys (i + 1), List.cons_append]
    have : i + 1 + xs.length = i + (x :: xs).length := by
      simp [List.length_cons]; omega
    rw [this]

/-- `sumWinning` over a cons. -/
theorem sumWinning_cons (r : GameResult) (rs : List GameResult) :
    sumWinning (r :: rs) = r.winningCoin + sumWinning rs := by
  simp [sumWinning]

/-- `sumWinning` over an append. -/
theorem sumWinning_append (rs1 rs2 : List GameResult) :
    sumWinning (rs1 ++ rs2) = sumWinning rs1 + sumWinning rs2 := by
  simp [sumWinning]

/-- All-zero payouts sum to zero. -/
theorem sumWinning_eq_zero (rs : List GameResult)
    (h : ∀ r ∈ rs, r.winningCoin = 0) : sumWinning rs = 0 := by
  refine List.sum_eq_zero ?_
  intro x hx
  obtain ⟨r, hr, rfl⟩ := List.mem_map.mp hx
  exact h r hr

/-- `numWins` over a cons. -/
theorem numWins_cons (p : Player) (ps : List Player) :
    numWins (p :: ps) =
      (if p.status = PlayerStatus.win then 1 else 0) + numWins ps := by
  by_cases h : p.status = PlayerStatus.win
  · simp [numWins, List.filter_cons, h]
    omega
  · simp [numWins, List.filter_cons, h]

/-- The WIN-first partition neither creates nor loses WIN players. -/
theorem filter_win_sortWinFirst (ps : List Player) :
    (sortWinFirst ps).filter (fun p => decide (p.status = PlayerStatus.win)) =
      ps.filter (fun p => decide (p.status = PlayerStatus.win)) := by
  rw [sortWinFirst, List.filter_append]
  have h1 : (ps.filter (fun p => decide (p.status = PlayerStatus.win))).filter
      (fun p => decide (p.status = PlayerStatus.win)) =
      ps.filter (fun p => decide (p.status = PlayerStatus.win)) := by
    refine List.filter_eq_self.mpr ?_
    intro a ha
    exact (List.mem_filter.mp ha).2
  have h2 : (ps.filter (fun p => decide (¬ p.status = PlayerStatus.win))).filter
      (fun p => decide (p.status = PlayerStatus.win)) = [] := by
    refine List.filter_eq_nil_iff.mpr ?_
    intro a ha
    have := (List.mem_filter.mp ha).2
    simp only [decide_eq_true_eq] at this
    simp [this]
  rw [h1, h2, List.append_nil]

/-- `numWins` is invariant under the WIN-first partition. -/
theorem numWins_sortWinFirst (ps : List Player) :
    numWins (sortWinFirst ps) = numWins ps :=
  congrArg List.length (filter_win_sortWinFirst ps)

/-- In a 2-player-mode settlement every WIN entry pays `2 × bet`
independently of rank, so the payout sum is linear in the number of WIN
players. -/
theorem sumWinning_resultsFrom_two (bet : Int) :
    ∀ (ps : List Player) (i : Nat),
      sumWinning (resultsFrom bet 2 i ps) = 2 * bet * (numWins ps : Int) := by
  intro ps
  induction ps with
  | nil => intro i; simp [resultsFrom, sumWinning, numWins]
  | cons p ps ih =>
    intro i
    rw [resultsFrom, sumWinning_cons, ih (i + 1), numWins_cons]
    by_cases h : p.status = PlayerStatus.win
    · have hw : winningCoinFor bet 2 (i + 1) p.status = bet * 2 := by
        simp [winningCoinFor, h]
      rw [hw, if_pos h]
      push_cast
      ring
    · have hw : winningCoinFor bet 2 (i + 1) p.status = 0 := by
        simp [winningCoinFor, h]
      rw [hw, if_neg h]
      push_cast
      ring

/-- In a 4-player-mode settlement, entries from rank 3 on pay zero. -/
theorem winningCoinFor_four_late (bet : Int) (rank : Nat) (st : PlayerStatus)
    (h : 3 ≤ rank) : winningCoinFor bet 4 rank st = 0 := by
  have h1 : ¬ rank = 1 := by omega
  have h2 : ¬ rank = 2 := by omega
  by_cases hst : st = PlayerStatus.win <;> simp [winningCoinFor, hst, h1, h2]

/-- The tail of a 4-player-mode settlement (index 2 onwards) contributes
nothing to the payout sum. -/
theorem resultsFrom_four_tail_zero (bet : Int) :
    ∀ (ps : List Player) (i : Nat), 2 ≤ i →
      ∀ r ∈ resultsFrom bet 4 i ps, r.winningCoin = 0 := by
  intro ps
  induction ps with
  | nil => intro i _ r h; simp [resultsFrom] at h
  | cons p ps ih =>
    intro i hi r h
    rw [resultsFrom] at h
    rcases List.mem_cons.mp h with h | h
    · subst h
      exact winningCoinFor_four_late bet (i + 1) p.status (by omega)
    · exact ih (i + 1) (by omega) r h

/-- The 4-player payout formula, written by rank and status. -/
theorem winningCoinFor_four (bet : Int) (rank : Nat) (st : PlayerStatus) :
    winningCoinFor bet 4 rank st =
      if st = PlayerStatus.win ∧ rank = 1 then bet * 3
      else if st = PlayerStatus.win ∧ rank = 2 then bet
      else 0 := by
  by_cases hst : st = PlayerStatus.win <;> by_cases h1 : rank = 1 <;>
    by_cases h2 : rank = 2 <;> simp [winningCoinFor, hst, h1, h2]

/-- 4-player-mode payout sum with at least two WIN players at the head of
the sorted roster: `3 × bet + 1 × bet`. -/
theorem sumWinning_resultsFrom_four (bet : Int) (w0 w1 : Player)
    (tl lose : List Player)
    (h0 : w0.status = PlayerStatus.win) (h1 : w1.status = PlayerStatus.win)
    (hlos : ∀ p ∈ lose, ¬ p.status = PlayerStatus.win) :
    sumWinning (resultsFrom bet 4 0 ((w0 :: w1 :: tl) ++ lose)) = 4 * bet := by
  rw [resultsFrom_append, sumWinning_append]
  have hl : sumWinning (resultsFrom bet 4 (0 + (w0 :: w1 :: tl).length) lose) = 0 :=
    sumWinning_eq_zero _ (fun r hr => (resultsFrom_nonwin bet 4 lose _ hlos r hr).2)
  rw [hl]
  have ht : sumWinning (resultsFrom bet 4 (0 + 1 + 1) tl) = 0 :=
    sumWinning_eq_zero _ (resultsFrom_four_tail_zero bet tl (0 + 1 + 1) (by omega))
  rw [resultsFrom, resultsFrom, sumWinning_cons, sumWinning_cons, ht]
  have e0 : winningCoinFor bet 4 (0 + 1) w0.status = bet * 3 := by
    simp [winningCoinFor, h0]
  have e1 : winningCoinFor bet 4 (0 + 1 + 1) w1.status = bet := by
    simp [winningCoinFor, h1]
  rw [e0, e1]
  ring

/-- 4-player-mode payout sum with exactly one WIN player: `3 × bet`. -/
theorem sumWinning_resultsFrom_four_one (bet : Int) (w0 : Player)
    (lose : List Player) (h0 : w0.status = PlayerStatus.win)
    (hlos : ∀ p ∈ lose, ¬ p.status = PlayerStatus.win) :
    sumWinning (resultsFrom bet 4 0 ([w0] ++ lose)) = 3 * bet := by
  rw [resultsFrom_append, sumWinning_append]
  have hl : sumWinning (resultsFrom bet 4 (0 + [w0].length) lose) = 0 :=
    sumWinning_eq_zero _ (fun r hr => (resultsFrom_nonwin bet 4 lose _ hlos r hr).2)
  rw [hl]
  have hh : sumWinning (resultsFrom bet 4 0 [w0]) = 3 * bet := by
    rw [resultsFrom, sumWinning_cons]
    have e0 : winningCoinFor bet 4 (0 + 1) w0.status = bet * 3 := by
      simp [winningCoinFor, h0]
    rw [e0]
    simp [resultsFrom, sumWinning]
    ring
  rw [hh]
  ring

/-- Non-WIN entries of the WIN-first partition's tail. -/
theorem losers_nonwin (ps : List Player) :
    ∀ p ∈ ps.filter (fun q => decide (¬ q.status = PlayerStatus.win)),
      ¬ p.status = PlayerStatus.win := by
  intro p hp
  have := (List.mem_filter.mp hp).2
  simpa using this

/-- Claim C2: in every settlement, ranks are 1-based positions after the
stable WIN-first sort; non-WIN entries always pay 0; with `max_players = 4`
the payout of every entry is `3 × bet` at rank 1 for a WIN, `1 × bet` at
rank 2 for a WIN, and 0 otherwise; with `max_players = 2` and at most one
WIN player on the roster (which holds whenever a 2-seat room reaches
settlement through a WAITING/PLAYING to FINISHED transition), the rank-1
WIN entry pays `2 × bet` and every other entry pays 0. -/
theorem settlement_payout_per_rank (room : Room) :
    (∀ r ∈ calculateGameResults room,
        ¬ r.playerStatus = PlayerStatus.win → r.winningCoin = 0) ∧
    (room.maxPlayers = 4 → ∀ r ∈ calculateGameResults room,
        r.winningCoin =
          if r.playerStatus = PlayerStatus.win ∧ r.playerRank = 1 then room.betAmount * 3
          else if r.playerStatus = PlayerStatus.win ∧ r.playerRank = 2 then room.betAmount
          else 0) ∧
    (room.maxPlayers = 2 → numWins room.players ≤ 1 →
      ∀ r ∈ calculateGameResults room,
        r.winningCoin =
          if r.playerStatus = PlayerStatus.win ∧ r.playerRank = 1 then room.betAmount * 2
          else 0) := by
  refine ⟨?_, ?_, ?_⟩
  · intro r hr hst
    have hwc := resultsFrom_winningCoin room.betAmount room.maxPlayers
      (sortWinFirst room.players) 0 r hr
    rw [hwc]
    simp [winningCoinFor, hst]
  · intro hmp r hr
    have hwc := resultsFrom_winningCoin room.betAmount room.maxPlayers
      (sortWinFirst room.players) 0 r hr
    rw [hmp] at hwc
    rw [hwc, winningCoinFor_four]
  · intro hmp hle r hr
    have hr' : r ∈ resultsFrom room.betAmount 2 0 (sortWinFirst room.players) := by
      rw [← hmp]
      exact hr
    rcases hfw : room.players.filter (fun p => decide (p.status = PlayerStatus.win))
      with _ | ⟨p0, tl⟩
    · have hsort : sortWinFirst room.players =
          room.players.filter (fun q => decide (¬ q.status = PlayerStatus.win)) := by
        rw [sortWinFirst, hfw, List.nil_append]
      rw [hsort] at hr'
      obtain ⟨hst, hz⟩ := resultsFrom_nonwin room.betAmount 2 _ 0
        (losers_nonwin room.players) r hr'
      rw [if_neg (fun hand => hst hand.1)]
      exact hz
    · have hlen : (p0 :: tl).length ≤ 1 := by
        have : numWins room.players = (p0 :: tl).length := by
          rw [numWins, hfw]
        omega
      have htl : tl = [] := by
        cases tl with
        | nil => rfl
        | cons a b => simp at hlen
      subst htl
      have hp0 : p0.status = PlayerStatus.win := by
        have hmem : p0 ∈ room.players.filter
            (fun p => decide (p.status = PlayerStatus.win)) := by
          rw [hfw]
          exact List.mem_cons_self p0 []
        simpa using (List.mem_filter.mp hmem).2
      have hsort : sortWinFirst room.players =
          p0 :: room.players.filter (fun q => decide (¬ q.status = PlayerStatus.win)) := by
        rw [sortWinFirst, hfw, List.cons_append, List.nil_append]
      rw [hsort, resultsFrom] at hr'
      rcases List.mem_cons.mp hr' with h | h
      · subst h
        simp [winningCoinFor, hp0]
      · obtain ⟨hst, hz⟩ := resultsFrom_nonwin room.betAmount 2 _ (0 + 1)
          (losers_nonwin room.players) r h
        rw [if_neg (fun hand => hst hand.1)]
        exact hz

/-- The finished 2-player room settling one WIN and one PLAYING entry, used
as the concrete witness input. -/
def c2Room : Room :=
  { roomId := "W2"
    hostUserId := "A"
    betAmount := 100
    maxPlayers := 2
    status := GameStatus.finished
    players := [mkPlayer "A" 0 1 PlayerStatus.win, mkPlayer "B" 1 2 PlayerStatus.playing]
    currentTurn := 0
    turnTimer := false
    gameData := { lastDice := 0, moves := [] } }

/-- The rank-1 WIN entry of `c2Room`'s settlement. -/
def c2Result : GameResult :=
  { userName := "A"
    userId := "A"
    winningCoin := 200
    playerRank := 1
    playerStatus := PlayerStatus.win }

/-- Witness for the C2 payout theorem at `c2Room`. -/
theorem settlement_payout_per_rank_witness :
    c2Result.winningCoin =
      if c2Result.playerStatus = PlayerStatus.win ∧ c2Result.playerRank = 1
      then c2Room.betAmount * 2 else 0 :=
  (settlement_payout_per_rank c2Room).2.2 rfl (by decide) c2Result (by decide)

/-- A 2-player PLAYING room in which both players ended TIMEOUT (reachable:
one player's disconnect-grace expiry marks them TIMEOUT without ending the
game, then the other accumulates three turn timeouts). -/
def c3Room : Room :=
  { roomId := "T2"
    hostUserId := "a"
    betAmount := 100
    maxPlayers := 2
    status := GameStatus.playing
    players := [mkPlayer "a" 0 1 PlayerStatus.timeout, mkPlayer "b" 1 2 PlayerStatus.timeout]
    currentTurn := 0
    turnTimer := false
    gameData := { lastDice := 0, moves := [] } }

/-- Claim C3 counterexample: a completed 2-player game with no WIN player
(all-timeout settlement) pays out 0 in total, not `2 × bet_amount`. -/
theorem all_timeout_two_player_sum_zero :
    c3Room.maxPlayers = 2 ∧
    sumWinning (calculateGameResults c3Room) = 0 ∧
    ¬ sumWinning (calculateGameResults c3Room) = 2 * c3Room.betAmount := by
  refine ⟨rfl, rfl, by decide⟩

/-- Claim C3 as amended: in 2-player mode the payout sum is
`2 × bet × (number of WIN players)` — `2 × bet` for the usual single-WIN
completion and 0 for a zero-WIN (all-timeout) completion; in 4-player mode
the sum is `4 × bet` with at least two WIN players and `3 × bet` with
exactly one. -/
theorem settlement_sum_conservation (room : Room) :
    (room.maxPlayers = 2 →
      sumWinning (calculateGameResults room) =
        2 * room.betAmount * (numWins room.players : Int)) ∧
    (room.maxPlayers = 4 → 2 ≤ numWins room.players →
      sumWinning (calculateGameResults room) = 4 * room.betAmount) ∧
    (room.maxPlayers = 4 → numWins room.players = 1 →
      sumWinning (calculateGameResults room) = 3 * room.betAmount) := by
  refine ⟨?_, ?_, ?_⟩
  · intro hmp
    have hcg : calculateGameResults room =
        resultsFrom room.betAmount 2 0 (sortWinFirst room.players) := by
      rw [show calculateGameResults room =
        resultsFrom room.betAmount room.maxPlayers 0 (sortWinFirst room.players) from rfl,
        hmp]
    rw [hcg, sumWinning_resultsFrom_two, numWins_sortWinFirst]
  · intro hmp hge
    rcases hfw : room.players.filter (fun p => decide (p.status = PlayerStatus.win))
      with _ | ⟨p0, tl⟩
    · exfalso
      have : numWins room.players = 0 := by rw [numWins, hfw]; rfl
      omega
    rcases tl with _ | ⟨p1, tl2⟩
    · exfalso
      have : numWins room.players = 1 := by rw [numWins, hfw]; rfl
      omega
    have hp0 : p0.status = PlayerStatus.win := by
      have hmem : p0 ∈ room.players.filter
          (fun p => decide (p.status = PlayerStatus.win)) := by
        rw [hfw]; exact List.mem_cons_self _ _
      simpa using (List.mem_filter.mp hmem).2
    have hp1 : p1.status = PlayerStatus.win := by
      have hmem : p1 ∈ room.players.filter
          (fun p => decide (p.status = PlayerStatus.win)) := by
        rw [hfw]
        exact List.mem_cons_of_mem _ (List.mem_cons_self _ _)
      simpa using (List.mem_filter.mp hmem).2
    have hcg : calculateGameResults room =
        resultsFrom room.betAmount 4 0 ((p0 :: p1 :: tl2) ++
          room.players.filter (fun q => decide (¬ q.status = PlayerStatus.win))) := by
      rw [show calculateGameResults room =
        resultsFrom room.betAmount room.maxPlayers 0 (sortWinFirst room.players) from rfl,
        hmp, sortWinFirst, hfw]
    rw [hcg]
    exact sumWinning_resultsFrom_four room.betAmount p0 p1 tl2 _ hp0 hp1
      (losers_nonwin room.players)
  · intro hmp hone
    rcases hfw : room.players.filter (fun p => decide (p.status = PlayerStatus.win))
      with _ | ⟨p0, tl⟩
    · exfalso
      have : numWins room.players = 0 := by rw [numWins, hfw]; rfl
      omega
    have htl : tl = [] := by
      have hlen : numWins room.players = tl.length + 1 := by
        rw [numWins, hfw]
        simp
      cases tl with
      | nil => rfl
      | cons a b =>
        rw [hone] at hlen
        simp at hlen
    subst htl
    have hp0 : p0.status = PlayerStatus.win := by
      have hmem : p0 ∈ room.players.filter
          (fun p => decide (p.status = PlayerStatus.win)) := by
        rw [hfw]; exact List.mem_cons_self _ _
      simpa using (List.mem_filter.mp hmem).2
    have hcg : calculateGameResults room =
        resultsFrom room.betAmount 4 0 ([p0] ++
          room.players.filter (fun q => decide (¬ q.status = PlayerStatus.win))) := by
      rw [show calculateGameResults room =
        resultsFrom room.betAmount room.maxPlayers 0 (sortWinFirst room.players) from rfl,
        hmp, sortWinFirst, hfw]
    rw [hcg]
    exact sumWinning_resultsFrom_four_one room.betAmount p0 _ hp0
      (losers_nonwin room.players)

/-- A 4-player room with two WIN players, a TIMEOUT and a PLAYING player,
used as the concrete witness input for the payout-sum theorem. -/
def c3bRoom : Room :=
  { roomId := "F4"
    hostUserId := "p0"
    betAmount := 50
    maxPlayers := 4
    status := GameStatus.finished
    players := [mkPlayer "p0" 0 1 PlayerStatus.win, mkPlayer "p1" 1 2 PlayerStatus.win,
                mkPlayer "p2" 2 3 PlayerStatus.timeout, mkPlayer "p3" 3 4 PlayerStatus.playing]
    currentTurn := 0
    turnTimer := false
    gameData := { lastDice := 0, moves := [] } }

/-- Witness for the amended C3 sum theorem at `c3bRoom`. -/
theorem settlement_sum_conservation_witness :
    sumWinning (calculateGameResults c3bRoom) = 4 * c3bRoom.betAmount :=
  (settlement_sum_conservation c3bRoom).2.1 rfl (by decide)

/-- Whether index `i` of the roster holds a PLAYING player (out-of-range
indices hold none). -/
def playingAt (ps : List Player) (i : Nat) : Bool :=
  match ps.get? i with
  | some p => decide (p.status = PlayerStatus.playing)
  | none => false

/-- Every residue below `N` is hit by some offset below `N` from any
start. -/
theorem exists_offset (N s j : Nat) (hN : 0 < N) (hj : j < N) :
    ∃ k, k < N ∧ (s + k) % N = j := by
  have haN : s % N < N := Nat.mod_lt _ hN
  by_cases hle : s % N ≤ j
  · refine ⟨j - s % N, by omega, ?_⟩
    have h1 : (s + (j - s % N)) % N = (s % N + (j - s % N)) % N := by
      rw [Nat.mod_add_mod]
    rw [h1, Nat.add_sub_cancel' hle]
    exact Nat.mod_eq_of_lt hj
  · refine ⟨N + j - s % N, by omega, ?_⟩
    have h1 : (s + (N + j - s % N)) % N = (s % N + (N + j - s % N)) % N := by
      rw [Nat.mod_add_mod]
    have h2 : s % N + (N + j - s % N) = N + j := by omega
    rw [h1, h2, Nat.add_mod_left]
    exact Nat.mod_eq_of_lt hj

/-- Full characterization of the `getNextTurn` scan loop: starting at
`s % N` with `fuel` attempts, it fails exactly when no scanned offset holds
a PLAYING player, and succeeds exactly on the first offset that does. -/
theorem nextTurnLoop_spec (ps : List Player) (hps : ps ≠ []) :
    ∀ (fuel s : Nat),
      (nextTurnLoop ps (s % ps.length) fuel = none ↔
        ∀ k, k < fuel → playingAt ps ((s + k) % ps.length) = false) ∧
      (∀ j, nextTurnLoop ps (s % ps.length) fuel = some j →
        ∃ k, k < fuel ∧ j = (s + k) % ps.length ∧ playingAt ps j = true ∧
          ∀ m, m < k → playingAt ps ((s + m) % ps.length) = false) := by
  have hN : 0 < ps.length := List.length_pos.mpr hps
  intro fuel
  induction fuel with
  | zero =>
    intro s
    constructor
    · constructor
      · intro _ k hk
        omega
      · intro _
        rfl
    · intro j hj
      simp [nextTurnLoop] at hj
  | succ fuel ih =>
    intro s
    have hidx : s % ps.length < ps.length := Nat.mod_lt _ hN
    have hget : ps.get? (s % ps.length) = some ps[s % ps.length] := by
      rw [List.get?_eq_getElem?, List.getElem?_eq_getElem hidx]
    have hplayAt : playingAt ps (s % ps.length) =
        decide (ps[s % ps.length].status = PlayerStatus.playing) := by
      rw [playingAt, hget]
    by_cases hp : ps[s % ps.length].status = PlayerStatus.playing
    · have hres : nextTurnLoop ps (s % ps.length) (fuel + 1) = some (s % ps.length) := by
        rw [nextTurnLoop, hget]
        simp [hp]
      constructor
      · constructor
        · intro h
          rw [hres] at h
          cases h
        · intro h
          exfalso
          have h0 := h 0 (Nat.succ_pos fuel)
          rw [Nat.add_zero, hplayAt] at h0
          simp [hp] at h0
      · intro j hj
        rw [hres] at hj
        cases hj
        refine ⟨0, Nat.succ_pos fuel, by rw [Nat.add_zero], ?_, ?_⟩
        · rw [hplayAt]
          simp [hp]
        · intro m hm
          omega
    · have hres : nextTurnLoop ps (s % ps.length) (fuel + 1) =
          nextTurnLoop ps ((s + 1) % ps.length) fuel := by
        rw [nextTurnLoop, hget]
        simp only [hp, decide_eq_true_eq, if_false, if_neg hp]
        rw [Nat.mod_add_mod]
      have hp0 : playingAt ps (s % ps.length) = false := by
        rw [hplayAt]
        simp [hp]
      obtain ⟨ihn, ihs⟩ := ih (s + 1)
      constructor
      · rw [hres]
        constructor
        · intro h k hk
          cases k with
          | zero =>
            rw [Nat.add_zero]
            exact hp0
          | succ k' =>
            have := ihn.mp h k' (by omega)
            have harr : s + 1 + k' = s + (k' + 1) := by omega
            rw [harr] at this
            exact this
        · intro h
          refine ihn.mpr ?_
          intro k hk
          have := h (k + 1) (by omega)
          have harr : s + (k + 1) = s + 1 + k := by omega
          rw [harr] at this
          exact this
      · intro j hj
        rw [hres] at hj
        obtain ⟨k, hk, hjk, hplay, hmin⟩ := ihs j hj
        refine ⟨k + 1, by omega, ?_, hplay, ?_⟩
        · have harr : s + 1 + k = s + (k + 1) := by omega
          rw [← harr]
          exact hjk
        · intro m hm
          cases m with
          | zero =>
            rw [Nat.add_zero]
            exact hp0
          | succ m' =>
            have harr : s + (m' + 1) = s + 1 + m' := by omega
            rw [harr]
            exact hmin m' (by omega)

/-- Claim C7: `getNextTurn` returns no index exactly when no rostered player
is PLAYING (WIN, LEFT and TIMEOUT are all skipped); a returned index is the
first PLAYING position scanning at most N offsets cyclically from
`(current_turn + 1) mod N`. -/
theorem next_turn_first_playing (room : Room) :
    (getNextTurn room = none ↔
      ∀ p ∈ room.players, ¬ p.status = PlayerStatus.playing) ∧
    (∀ j, getNextTurn room = some j →
      ∃ k, k < room.players.length ∧
        j = (room.currentTurn + 1 + k) % room.players.length ∧
        playingAt room.players j = true ∧
        ∀ m, m < k → playingAt room.players
          ((room.currentTurn + 1 + m) % room.players.length) = false) := by
  by_cases hps : room.players = []
  · have hnone : getNextTurn room = none := by simp [getNextTurn, hps]
    constructor
    · constructor
      · intro _ p hp
        rw [hps] at hp
        simp at hp
      · intro _
        exact hnone
    · intro j hj
      rw [hnone] at hj
      cases hj
  · have hN : 0 < room.players.length := List.length_pos.mpr hps
    by_cases hact : (room.players.filter (fun p =>
        decide (p.status = PlayerStatus.playing) ||
        decide (p.status = PlayerStatus.win))).length = 0
    · have hnone : getNextTurn room = none := by simp [getNextTurn, hact]
      have hnp : ∀ p ∈ room.players, ¬ p.status = PlayerStatus.playing := by
        intro p hp hpl
        have hmem : p ∈ room.players.filter (fun p =>
            decide (p.status = PlayerStatus.playing) ||
            decide (p.status = PlayerStatus.win)) :=
          List.mem_filter.mpr ⟨hp, by simp [hpl]⟩
        have := List.length_pos.mpr (List.ne_nil_of_mem hmem)
        omega
      constructor
      · exact ⟨fun _ => hnp, fun _ => hnone⟩
      · intro j hj
        rw [hnone] at hj
        cases hj
    · have hrun : getNextTurn room =
          nextTurnLoop room.players ((room.currentTurn + 1) % room.players.length)
            room.players.length := by
        simp [getNextTurn, hact]
      obtain ⟨hiff, hspec⟩ := nextTurnLoop_spec room.players hps room.players.length
        (room.currentTurn + 1)
      constructor
      · rw [hrun]
        constructor
        · intro h p hp hpl
          obtain ⟨n, hnp'⟩ := List.get_of_mem hp
          have hpa : playingAt room.players n.1 = true := by
            rw [playingAt, List.get?_eq_getElem?, List.getElem?_eq_getElem n.2]
            have hv : room.players[n.1] = p := by
              rw [← List.get_eq_getElem]
              exact hnp'
            rw [hv]
            simp [hpl]
          obtain ⟨k, hk, hkj⟩ :=
            exists_offset room.players.length (room.currentTurn + 1) n.1 hN n.2
          have hcontra := hiff.mp h k hk
          rw [hkj, hpa] at hcontra
          cases hcontra
        · intro h
          refine hiff.mpr ?_
          intro k hk
          have hiN : (room.currentTurn + 1 + k) % room.players.length <
              room.players.length := Nat.mod_lt _ hN
          rw [playingAt, List.get?_eq_getElem?, List.getElem?_eq_getElem hiN]
          have hq : room.players[(room.currentTurn + 1 + k) % room.players.length] ∈
              room.players := List.getElem_mem _
          have := h _ hq
          simp [this]
      · intro j hj
        rw [hrun] at hj
        exact hspec j hj

/-- A PLAYING room whose roster mixes WIN, PLAYING and TIMEOUT, used as the
concrete input of the turn-advancement witness. -/
def c7Room : Room :=
  { roomId := "N1"
    hostUserId := "x"
    betAmount := 10
    maxPlayers := 4
    status := GameStatus.playing
    players := [mkPlayer "x" 0 1 PlayerStatus.win, mkPlayer "y" 1 2 PlayerStatus.playing,
                mkPlayer "z" 2 3 PlayerStatus.timeout]
    currentTurn := 0
    turnTimer := true
    gameData := { lastDice := 0, moves := [] } }

/-- Witness for the C7 theorem: in `c7Room` the scan lands on index 1, the
first PLAYING player after the cursor. -/
theorem next_turn_first_playing_witness :
    ∃ k, k < c7Room.players.length ∧
      1 = (c7Room.currentTurn + 1 + k) % c7Room.players.length ∧
      playingAt c7Room.players 1 = true ∧
      ∀ m, m < k → playingAt c7Room.players
        ((c7Room.currentTurn + 1 + m) % c7Room.players.length) = false :=
  (next_turn_first_playing c7Room).2 1 rfl

/-- Field bookkeeping of the `request_join` seating tail: seating appends
exactly one player and never alters room id, bet or capacity. -/
theorem joinSeat_fields (room : Room) (uid uname : String) (sid : Nat) :
    (joinSeat room uid uname sid).1.roomId = room.roomId ∧
    (joinSeat room uid uname sid).1.betAmount = room.betAmount ∧
    (joinSeat room uid uname sid).1.maxPlayers = room.maxPlayers ∧
    (joinSeat room uid uname sid).1.players =
      room.players ++ [createPlayer uid uname room.players.length sid] := by
  unfold joinSeat
  by_cases h : room.players.length + 1 = room.maxPlayers
  · simp [h]
  · simp [h]

/-- Claim C8: `findAvailableRoom` returns nothing exactly when no room is a
WAITING exact-bet exact-size room with a free seat; a returned room is the
earliest-inserted such room; and when nothing matches, `request_join` (with
the caller loaded and funded) appends a fresh room seating the caller. -/
theorem matchmaking_first_waiting_match (rooms : List Room) (bet : Int) (pc : Nat) :
    (findAvailableRoom rooms bet pc = none ↔
      ∀ r ∈ rooms, ¬(r.status = GameStatus.waiting ∧ r.betAmount = bet ∧
        r.maxPlayers = pc ∧ r.players.length < pc)) ∧
    (∀ r, findAvailableRoom rooms bet pc = some r →
      (r.status = GameStatus.waiting ∧ r.betAmount = bet ∧ r.maxPlayers = pc ∧
        r.players.length < pc) ∧
      ∃ pre post, rooms = pre ++ r :: post ∧
        ∀ q ∈ pre, ¬(q.status = GameStatus.waiting ∧ q.betAmount = bet ∧
          q.maxPlayers = pc ∧ q.players.length < pc)) ∧
    (∀ (users : Users) (sid : Nat) (fid : String) (p : JoinPayload) (user : User),
      usersGet users p.userId = some user → ¬ user.coins < p.roomCoinValue →
      findAvailableRoom rooms p.roomCoinValue p.roomPlayersSize = none →
      ∃ newRoom emits,
        requestJoin users rooms sid fid p =
          (usersSet users p.userId { user with coins := user.coins - p.roomCoinValue },
            rooms ++ [newRoom], emits) ∧
        newRoom.roomId = fid ∧ newRoom.betAmount = p.roomCoinValue ∧
        newRoom.maxPlayers = p.roomPlayersSize ∧
        newRoom.players.map Player.userId = [p.userId]) := by
  have hpred : ∀ r : Room, availablePred bet pc r = true ↔
      (r.status = GameStatus.waiting ∧ r.betAmount = bet ∧
        r.maxPlayers = pc ∧ r.players.length < pc) := by
    intro r
    simp [availablePred, and_assoc]
  refine ⟨?_, ?_, ?_⟩
  · rw [findAvailableRoom, List.find?_eq_none]
    constructor
    · intro h r hr hp
      exact h r hr ((hpred r).mpr hp)
    · intro h r hr hb
      exact h r hr ((hpred r).mp hb)
  · intro r hfind
    obtain ⟨hp, l1, l2, heq, hall⟩ := find?_split (availablePred bet pc) rooms r hfind
    refine ⟨(hpred r).mp hp, l1, l2, heq, ?_⟩
    intro q hq hqp
    have := hall q hq
    rw [(hpred q).mpr hqp] at this
    cases this
  · intro users sid fid p user hu hc hnone
    refine ⟨(joinSeat (createRoom fid p.userId p.roomCoinValue p.roomPlayersSize)
        p.userId p.userName sid).1,
      (joinSeat (createRoom fid p.userId p.roomCoinValue p.roomPlayersSize)
        p.userId p.userName sid).2, ?_, ?_, ?_, ?_, ?_⟩
    · simp only [requestJoin, hu, if_neg hc, hnone]
    · exact (joinSeat_fields _ _ _ _).1
    · exact (joinSeat_fields _ _ _ _).2.1
    · exact (joinSeat_fields _ _ _ _).2.2.1
    · rw [(joinSeat_fields _ _ _ _).2.2.2]
      simp [createRoom, createPlayer]

/-- A waiting room at the wrong stake, inserted before the matching room in
the registry: the witness shows matchmaking skips it. -/
def c8RoomA : Room :=
  { roomId := "A1"
    hostUserId := "h1"
    betAmount := 50
    maxPlayers := 2
    status := GameStatus.waiting
    players := []
    currentTurn := 0
    turnTimer := false
    gameData := { lastDice := 0, moves := [] } }

/-- The earliest-inserted room matching stake 100 and size 2. -/
def c8RoomB : Room :=
  { roomId := "B1"
    hostUserId := "h2"
    betAmount := 100
    maxPlayers := 2
    players := [mkPlayer "h2" 0 4 PlayerStatus.playing]
    status := GameStatus.waiting
    currentTurn := 0
    turnTimer := false
    gameData := { lastDice := 0, moves := [] } }

/-- Witness for the C8 theorem at a concrete two-room registry. -/
theorem matchmaking_first_waiting_match_witness :
    (c8RoomB.status = GameStatus.waiting ∧ c8RoomB.betAmount = 100 ∧
      c8RoomB.maxPlayers = 2 ∧ c8RoomB.players.length < 2) ∧
    ∃ pre post, [c8RoomA, c8RoomB] = pre ++ c8RoomB :: post ∧
      ∀ q ∈ pre, ¬(q.status = GameStatus.waiting ∧ q.betAmount = 100 ∧
        q.maxPlayers = 2 ∧ q.players.length < 2) :=
  (matchmaking_first_waiting_match [c8RoomA, c8RoomB] 100 2).2.1 c8RoomB rfl

/-- Claim C6: a `win_game` for a PLAYING room marks the named player WIN and
then, when at most one PLAYING player remains, finishes the room (status
FINISHED, timer handle cleared), settles, emits `win_game` then `game_over`
with the ranked results, and schedules the room's deletion 10000 ms later;
with more than one PLAYING player left, only the marking and the `win_game`
broadcast happen and the room stays PLAYING. -/
theorem win_game_terminal_transition (users : Users) (rooms : List Room)
    (p : WinPayload) (room : Room) (hroom : roomsGet rooms p.roomId = some room)
    (hst : room.status = GameStatus.playing) :
    (playingCount (winMarkedPlayers room p.peerId) ≤ 1 →
      winGameHandler users rooms p =
        (updatePlayerCoinsAndStats users (calculateGameResults
            { room with players := winMarkedPlayers room p.peerId,
                        status := GameStatus.finished, turnTimer := false }),
         roomsUpdate rooms p.roomId (fun _ =>
            { room with players := winMarkedPlayers room p.peerId,
                        status := GameStatus.finished, turnTimer := false }),
         [⟨Target.peers, OutMsg.winGameMsg p.peerId⟩,
          ⟨Target.room, OutMsg.gameOver (calculateGameResults
            { room with players := winMarkedPlayers room p.peerId,
                        status := GameStatus.finished, turnTimer := false })⟩],
         [Scheduled.deleteRoom p.roomId 10000]) ∧
      roomsGet (winGameHandler users rooms p).2.1 p.roomId =
        some { room with players := winMarkedPlayers room p.peerId,
                         status := GameStatus.finished, turnTimer := false }) ∧
    (1 < playingCount (winMarkedPlayers room p.peerId) →
      winGameHandler users rooms p =
        (users,
         roomsUpdate rooms p.roomId (fun _ =>
            { room with players := winMarkedPlayers room p.peerId }),
         [⟨Target.peers, OutMsg.winGameMsg p.peerId⟩], []) ∧
      roomsGet (winGameHandler users rooms p).2.1 p.roomId =
        some { room with players := winMarkedPlayers room p.peerId } ∧
      ({ room with players := winMarkedPlayers room p.peerId } : Room).status =
        GameStatus.playing) := by
  have hid : room.roomId = p.roomId := roomsGet_some_id rooms p.roomId room hroom
  constructor
  · intro h
    have heq : winGameHandler users rooms p =
        (updatePlayerCoinsAndStats users (calculateGameResults
            { room with players := winMarkedPlayers room p.peerId,
                        status := GameStatus.finished, turnTimer := false }),
         roomsUpdate rooms p.roomId (fun _ =>
            { room with players := winMarkedPlayers room p.peerId,
                        status := GameStatus.finished, turnTimer := false }),
         [⟨Target.peers, OutMsg.winGameMsg p.peerId⟩,
          ⟨Target.room, OutMsg.gameOver (calculateGameResults
            { room with players := winMarkedPlayers room p.peerId,
                        status := GameStatus.finished, turnTimer := false })⟩],
         [Scheduled.deleteRoom p.roomId 10000]) := by
      simp only [winGameHandler, hroom]
      rw [if_pos h]
    refine ⟨heq, ?_⟩
    rw [heq]
    exact roomsGet_update_self rooms p.roomId _ room hroom (by simpa using hid)
  · intro h
    have h' : ¬ playingCount (winMarkedPlayers room p.peerId) ≤ 1 := by omega
    have heq : winGameHandler users rooms p =
        (users,
         roomsUpdate rooms p.roomId (fun _ =>
            { room with players := winMarkedPlayers room p.peerId }),
         [⟨Target.peers, OutMsg.winGameMsg p.peerId⟩], []) := by
      simp only [winGameHandler, hroom]
      rw [if_neg h']
    refine ⟨heq, ?_, by simpa using hst⟩
    rw [heq]
    exact roomsGet_update_self rooms p.roomId _ room hroom (by simpa using hid)

/-- The PLAYING 2-player room used as the concrete `win_game` witness
input. -/
def c6Room : Room :=
  { roomId := "G6"
    hostUserId := "A"
    betAmount := 100
    maxPlayers := 2
    status := GameStatus.playing
    players := [mkPlayer "A" 0 11 PlayerStatus.playing, mkPlayer "B" 1 12 PlayerStatus.playing]
    currentTurn := 0
    turnTimer := true
    gameData := { lastDice := 4, moves := [] } }

/-- The users map backing the `win_game` witness. -/
def c6Users : Users :=
  [("A", { userName := "A", coins := 900, winCount := 0, lostCount := 0,
           level := 1, totalGamesPlayed := 0 }),
   ("B", { userName := "B", coins := 900, winCount := 0, lostCount := 0,
           level := 1, totalGamesPlayed := 0 })]

/-- `c6Room` after peer 0's win finishes it. -/
def c6Finished : Room :=
  { c6Room with players := winMarkedPlayers c6Room 0
                status := GameStatus.finished
                turnTimer := false }

/-- Witness for the C6 theorem: peer 0 wins the 2-player game, the room
finishes, settlement and `game_over` happen and deletion is scheduled. -/
theorem win_game_terminal_transition_witness :
    winGameHandler c6Users [c6Room] { roomId := "G6", peerId := 0, playerRank := 1 } =
      (updatePlayerCoinsAndStats c6Users (calculateGameResults c6Finished),
       roomsUpdate [c6Room] "G6" (fun _ => c6Finished),
       [⟨Target.peers, OutMsg.winGameMsg 0⟩,
        ⟨Target.room, OutMsg.gameOver (calculateGameResults c6Finished)⟩],
       [Scheduled.deleteRoom "G6" 10000]) ∧
    roomsGet (winGameHandler c6Users [c6Room]
        { roomId := "G6", peerId := 0, playerRank := 1 }).2.1 "G6" = some c6Finished :=
  (win_game_terminal_transition c6Users [c6Room]
    { roomId := "G6", peerId := 0, playerRank := 1 } c6Room rfl rfl).1 (by decide)

/-- Setting then reading the same in-range index. -/
theorem get?_set_self {α : Type} (l : List α) (i : Nat) (a : α) (h : i < l.length) :
    (l.set i a).get? i = some a := by
  induction l generalizing i with
  | nil => simp at h
  | cons x xs ih =>
    cases i with
    | zero => rfl
    | succ i' =>
      have : i' < xs.length := by simpa using h
      simpa [List.set] using ih i' this

/-- `findMarkWin` succeeds on any roster holding a PLAYING player. -/
theorem findMarkWin_isSome (ps : List Player) (h : playingCount ps ≠ 0) :
    ∃ w ps1, findMarkWin ps = some (w, ps1) := by
  induction ps with
  | nil => simp [playingCount] at h
  | cons p ps ih =>
    by_cases hp : p.status = PlayerStatus.playing
    · exact ⟨p, { p with status := PlayerStatus.win } :: ps, by simp [findMarkWin, hp]⟩
    · have h' : playingCount ps ≠ 0 := by
        simpa [playingCount, List.filter_cons, hp] using h
      obtain ⟨w, ps1, hw⟩ := ih h'
      exact ⟨w, p :: ps1, by simp [findMarkWin, hp, hw]⟩

/-- What `findMarkWin` returns: the first PLAYING player, and the roster
with exactly that occurrence replaced by its WIN copy. -/
theorem findMarkWin_spec (ps : List Player) (w : Player) (ps1 : List Player)
    (h : findMarkWin ps = some (w, ps1)) :
    w.status = PlayerStatus.playing ∧
    { w with status := PlayerStatus.win } ∈ ps1 := by
  induction ps generalizing ps1 with
  | nil => simp [findMarkWin] at h
  | cons p ps ih =>
    by_cases hp : p.status = PlayerStatus.playing
    · rw [findMarkWin, if_pos hp] at h
      cases h
      exact ⟨hp, List.mem_cons_self _ _⟩
    · rw [findMarkWin, if_neg hp] at h
      cases hrec : findMarkWin ps with
      | none => rw [hrec] at h; cases h
      | some pr =>
        rw [hrec] at h
        cases h
        obtain ⟨hw, hmem⟩ := ih pr.2 (by rw [hrec])
        exact ⟨hw, List.mem_cons_of_mem _ hmem⟩

/-- `findMarkWin` leaves every index holding a non-PLAYING player
untouched. -/
theorem findMarkWin_get?_preserve (ps : List Player) (w : Player) (ps1 : List Player)
    (h : findMarkWin ps = some (w, ps1)) :
    ∀ (i : Nat) (q : Player), ps.get? i = some q →
      ¬ q.status = PlayerStatus.playing → ps1.get? i = some q := by
  induction ps generalizing ps1 with
  | nil => simp [findMarkWin] at h
  | cons p ps ih =>
    intro i q hq hnq
    by_cases hp : p.status = PlayerStatus.playing
    · rw [findMarkWin, if_pos hp] at h
      cases h
      cases i with
      | zero =>
        cases hq
        exact absurd hp hnq
      | succ i' => exact hq
    · rw [findMarkWin, if_neg hp] at h
      cases hrec : findMarkWin ps with
      | none => rw [hrec] at h; cases h
      | some pr =>
        rw [hrec] at h
        cases h
        cases i with
        | zero => exact hq
        | succ i' => exact ih pr.2 (by rw [hrec]) i' q hq hnq

/-- The auto turn change never edits the roster. -/
theorem autoTurn_players (users : Users) (room : Room) (es : List Emission) :
    (autoTurn users room es).2.1.players = room.players := by
  rcases h : getNextTurn room with _ | nt
  · simp [autoTurn, h]
  · rcases hq : room.players[nt]? with _ | np
    · simp [autoTurn, h, hq]
    · simp [autoTurn, h, hq]

/-- The auto turn change only appends to the emissions accumulated so
far. -/
theorem autoTurn_emits_prefix (users : Users) (room : Room) (es : List Emission) :
    ∃ tail, (autoTurn users room es).2.2.1 = es ++ tail := by
  rcases h : getNextTurn room with _ | nt
  · exact ⟨[⟨Target.room, OutMsg.gameOver (calculateGameResults
      { room with turnTimer := false })⟩], by simp [autoTurn, h]⟩
  · rcases hq : room.players[nt]? with _ | np
    · exact ⟨[], by simp [autoTurn, h, hq]⟩
    · exact ⟨[⟨Target.room, OutMsg.turnChanged np.peerId⟩], by simp [autoTurn, h, hq]⟩


/-- Claim C5: when the turn timer fires on a PLAYING current player whose
counter reaches 3, that player is marked TIMEOUT (their roster slot holds
the TIMEOUT copy afterwards) and `user_timeout` is emitted; if exactly one
PLAYING player then remains, that player is marked WIN, `win_game` is
emitted, the room finishes with its timer cleared, and settlement plus
`game_over` are scheduled 2000 ms later; if zero PLAYING players remain,
settlement runs and `game_over` is emitted immediately with nothing
scheduled. -/
theorem turn_timer_third_strike (users : Users) (room : Room) (cp : Player)
    (hcp : room.players.get? room.currentTurn = some cp)
    (hst : cp.status = PlayerStatus.playing)
    (hn : cp.numoftimeout = 2) :
    ((turnTimerFire users room).2.1).players.get? room.currentTurn =
      some { cp with numoftimeout := 3, status := PlayerStatus.timeout } ∧
    (⟨Target.room, OutMsg.userTimeout cp.peerId⟩ : Emission) ∈
      (turnTimerFire users room).2.2.1 ∧
    (playingCount (room.players.set room.currentTurn
        ({ cp with numoftimeout := 3, status := PlayerStatus.timeout })) = 1 →
      ∃ w ps3, findMarkWin (room.players.set room.currentTurn
          ({ cp with numoftimeout := 3, status := PlayerStatus.timeout })) = some (w, ps3) ∧
        w.status = PlayerStatus.playing ∧
        { w with status := PlayerStatus.win } ∈ ps3 ∧
        turnTimerFire users room =
          (users,
           { room with players := ps3, status := GameStatus.finished, turnTimer := false },
           [⟨Target.room, OutMsg.userTimeoutCounter cp.peerId 3⟩,
            ⟨Target.room, OutMsg.userTimeout cp.peerId⟩,
            ⟨Target.room, OutMsg.winGameMsg (w.peerId : Int)⟩],
           [Scheduled.settleGameOver room.roomId 2000])) ∧
    (playingCount (room.players.set room.currentTurn
        ({ cp with numoftimeout := 3, status := PlayerStatus.timeout })) = 0 →
      turnTimerFire users room =
        (updatePlayerCoinsAndStats users (calculateGameResults
            { room with
                players := room.players.set room.currentTurn
                  ({ cp with numoftimeout := 3, status := PlayerStatus.timeout }),
                turnTimer := false }),
         { room with
             players := room.players.set room.currentTurn
               ({ cp with numoftimeout := 3, status := PlayerStatus.timeout }),
             turnTimer := false },
         [⟨Target.room, OutMsg.userTimeoutCounter cp.peerId 3⟩,
          ⟨Target.room, OutMsg.userTimeout cp.peerId⟩,
          ⟨Target.room, OutMsg.gameOver (calculateGameResults
            { room with
                players := room.players.set room.currentTurn
                  ({ cp with numoftimeout := 3, status := PlayerStatus.timeout }),
                turnTimer := false })⟩],
         [])) := by
  have hlt : room.currentTurn < room.players.length := by
    by_contra hge
    rw [List.get?_eq_none.mpr (by omega)] at hcp
    cases hcp
  have hcpg : room.players[room.currentTurn]? = some cp := by
    rw [← List.get?_eq_getElem?]
    exact hcp
  have hset : (room.players.set room.currentTurn
      ({ cp with numoftimeout := 3, status := PlayerStatus.timeout })).get?
      room.currentTurn =
      some { cp with numoftimeout := 3, status := PlayerStatus.timeout } :=
    get?_set_self _ _ _ hlt
  have hcp2np : ¬ ({ cp with numoftimeout := 3, status := PlayerStatus.timeout } :
      Player).status = PlayerStatus.playing := by
    simp
  by_cases h1 : playingCount (room.players.set room.currentTurn
      ({ cp with numoftimeout := 3, status := PlayerStatus.timeout })) = 1
  · obtain ⟨w, ps3, hwin⟩ := findMarkWin_isSome (room.players.set room.currentTurn
      ({ cp with numoftimeout := 3, status := PlayerStatus.timeout })) (by omega)
    have hfire : turnTimerFire users room =
        (users,
         { room with players := ps3, status := GameStatus.finished, turnTimer := false },
         [⟨Target.room, OutMsg.userTimeoutCounter cp.peerId 3⟩,
          ⟨Target.room, OutMsg.userTimeout cp.peerId⟩,
          ⟨Target.room, OutMsg.winGameMsg (w.peerId : Int)⟩],
         [Scheduled.settleGameOver room.roomId 2000]) := by
      simp [turnTimerFire, hcpg, hst, hn, List.set_set, h1, hwin]
    obtain ⟨hwst, hwmem⟩ := findMarkWin_spec _ _ _ hwin
    refine ⟨?_, ?_, ?_, ?_⟩
    · rw [hfire]
      exact findMarkWin_get?_preserve _ _ _ hwin room.currentTurn _ hset hcp2np
    · rw [hfire]
      simp
    · intro _
      exact ⟨w, ps3, hwin, hwst, hwmem, hfire⟩
    · intro h0
      omega
  · by_cases h0 : playingCount (room.players.set room.currentTurn
        ({ cp with numoftimeout := 3, status := PlayerStatus.timeout })) = 0
    · have hfire : turnTimerFire users room =
          (updatePlayerCoinsAndStats users (calculateGameResults
              { room with
                  players := room.players.set room.currentTurn
                    ({ cp with numoftimeout := 3, status := PlayerStatus.timeout }),
                  turnTimer := false }),
           { room with
               players := room.players.set room.currentTurn
                 ({ cp with numoftimeout := 3, status := PlayerStatus.timeout }),
               turnTimer := false },
           [⟨Target.room, OutMsg.userTimeoutCounter cp.peerId 3⟩,
            ⟨Target.room, OutMsg.userTimeout cp.peerId⟩,
            ⟨Target.room, OutMsg.gameOver (calculateGameResults
              { room with
                  players := room.players.set room.currentTurn
                    ({ cp with numoftimeout := 3, status := PlayerStatus.timeout }),
                  turnTimer := false })⟩],
           []) := by
        simp [turnTimerFire, hcpg, hst, hn, List.set_set, h1, h0]
      refine ⟨?_, ?_, ?_, ?_⟩
      · rw [hfire]
        exact hset
      · rw [hfire]
        simp
      · intro h1'
        omega
      · intro _
        exact hfire
    · have hfire : turnTimerFire users room =
          autoTurn users
            { room with
                players := room.players.set room.currentTurn
                  ({ cp with numoftimeout := 3, status := PlayerStatus.timeout }) }
            [⟨Target.room, OutMsg.userTimeoutCounter cp.peerId 3⟩,
             ⟨Target.room, OutMsg.userTimeout cp.peerId⟩] := by
        simp [turnTimerFire, hcpg, hst, hn, List.set_set, h1, h0]
      refine ⟨?_, ?_, ?_, ?_⟩
      · rw [hfire]
        rw [autoTurn_players]
        exact hset
      · rw [hfire]
        obtain ⟨tail, htail⟩ := autoTurn_emits_prefix users _ _
        rw [htail]
        exact List.mem_append_left _ (by simp)
      · intro h1'
        omega
      · intro h0'
        omega

/-- The current player of the C5 witness: PLAYING with two strikes
already. -/
def c5P0 : Player :=
  { userId := "a5"
    userName := "a5"
    peerId := 0
    socketId := 1
    status := PlayerStatus.playing
    numoftimeout := 2 }

/-- A 2-player PLAYING room about to deliver the third strike to peer 0. -/
def c5Room : Room :=
  { roomId := "R5"
    hostUserId := "a5"
    betAmount := 100
    maxPlayers := 2
    status := GameStatus.playing
    players := [c5P0, mkPlayer "b5" 1 2 PlayerStatus.playing]
    currentTurn := 0
    turnTimer := true
    gameData := { lastDice := 0, moves := [] } }

/-- Witness for the C5 theorem: firing the timer on `c5Room` emits
`user_timeout` for the struck-out player. -/
theorem turn_timer_third_strike_witness :
    (⟨Target.room, OutMsg.userTimeout c5P0.peerId⟩ : Emission) ∈
      (turnTimerFire [] c5Room).2.2.1 :=
  (turn_timer_third_strike [] c5Room c5P0 rfl rfl rfl).2.1

/-- Rebinding the first roster entry of a user commutes with looking that
user up. -/
theorem find?_rebindFirstUser (ps : List Player) (uid : String) (sid : Nat) :
    (rebindFirstUser ps uid sid).find? (fun q => decide (q.userId = uid)) =
      (ps.find? (fun q => decide (q.userId = uid))).map
        (fun q => { q with socketId := sid }) := by
  induction ps with
  | nil => rfl
  | cons q qs ih =>
    by_cases hq : q.userId = uid
    · simp [rebindFirstUser, hq, List.find?_cons_of_pos]
    · simp [rebindFirstUser, hq, List.find?_cons_of_neg, ih]

/-- The WAITING friend room refuting claim C9's guard: its host's socket 7
disconnects and a grace timer is scheduled although the room is not
PLAYING. -/
def c9Room : Room :=
  { roomId := "W9"
    hostUserId := "u9"
    betAmount := 100
    maxPlayers := 2
    status := GameStatus.waiting
    players := [mkPlayer "u9" 0 7 PlayerStatus.playing]
    currentTurn := 0
    turnTimer := false
    gameData := { lastDice := 0, moves := [] } }

/-- Claim C9 counterexample: the disconnect handler schedules the 30 s
grace timer for a WAITING room — the room's status is never consulted. -/
theorem grace_timer_started_for_waiting_room :
    ¬ c9Room.status = GameStatus.playing ∧
    disconnectSchedule [c9Room] (some "W9") 7 =
      [Scheduled.graceTimer "W9" "u9" 0 7 30000] :=
  ⟨by decide, rfl⟩

/-- Claim C9 as amended: the grace timer is scheduled whenever the departing
socket was in an existing room rostering a player bound to it, whatever the
room's status; when it fires it marks that player TIMEOUT and fans out
`user_timeout` exactly when the player's socket binding still equals the
departed one, and takes no action otherwise — in particular, after a
`get_previous_room` rebind to a new socket, the fire is a no-op. -/
theorem grace_timer_rebind_guard :
    (∀ (rooms : List Room) (rid : String) (sid : Nat) (room : Room) (pl : Player),
      roomsGet rooms rid = some room →
      room.players.find? (fun q => decide (q.socketId = sid)) = some pl →
      disconnectSchedule rooms (some rid) sid =
        [Scheduled.graceTimer rid pl.userId pl.peerId sid 30000]) ∧
    (∀ (rooms : List Room) (rid uid : String) (pid sid : Nat) (room : Room) (cp : Player),
      roomsGet rooms rid = some room →
      room.players.find? (fun q => decide (q.userId = uid)) = some cp →
      (¬ cp.socketId = sid → graceFire rooms rid uid pid sid = (rooms, [])) ∧
      (cp.socketId = sid →
        graceFire rooms rid uid pid sid =
          (roomsUpdate rooms rid (fun r =>
            { r with players := markFirstUserTimeout r.players uid }),
           [⟨Target.peers, OutMsg.userTimeout pid⟩]))) ∧
    (∀ (rooms : List Room) (rid uid : String) (pid sid nsid : Nat)
        (room : Room) (pl : Player),
      roomsGet rooms rid = some room →
      room.players.find? (fun q => decide (q.userId = uid)) = some pl →
      ¬ nsid = sid →
      graceFire (getPreviousRoom rooms nsid { roomId := rid, userId := uid }).1
          rid uid pid sid =
        ((getPreviousRoom rooms nsid { roomId := rid, userId := uid }).1, [])) := by
  refine ⟨?_, ?_, ?_⟩
  · intro rooms rid sid room pl h1 h2
    simp [disconnectSchedule, h1, h2]
  · intro rooms rid uid pid sid room cp h1 h2
    constructor
    · intro hne
      simp [graceFire, h1, h2, hne]
    · intro heq
      simp [graceFire, h1, h2, heq]
  · intro rooms rid uid pid sid nsid room pl h1 h2 hne
    have hid : room.roomId = rid := roomsGet_some_id rooms rid room h1
    have hprev : (getPreviousRoom rooms nsid { roomId := rid, userId := uid }).1 =
        roomsUpdate rooms rid (fun r =>
          { r with players := rebindFirstUser r.players uid nsid }) := by
      simp [getPreviousRoom, h1, h2]
    have hget2 : roomsGet (getPreviousRoom rooms nsid
        { roomId := rid, userId := uid }).1 rid =
        some { room with players := rebindFirstUser room.players uid nsid } := by
      rw [hprev]
      exact roomsGet_update_self rooms rid _ room h1 (by simpa using hid)
    have hfind2 : ({ room with players := rebindFirstUser room.players uid nsid } :
        Room).players.find? (fun q => decide (q.userId = uid)) =
        some { pl with socketId := nsid } := by
      show (rebindFirstUser room.players uid nsid).find?
        (fun q => decide (q.userId = uid)) = some { pl with socketId := nsid }
      rw [find?_rebindFirstUser, h2]
      rfl
    simp [graceFire, hget2, hfind2, hne]

/-- The PLAYING room backing the C9 witness: player `u9` was bound to socket
7, disconnects, and reconnects on socket 8 before the grace fire. -/
def c9bRoom : Room :=
  { roomId := "P9"
    hostUserId := "u9"
    betAmount := 100
    maxPlayers := 2
    status := GameStatus.playing
    players := [mkPlayer "u9" 0 7 PlayerStatus.playing]
    currentTurn := 0
    turnTimer := true
    gameData := { lastDice := 0, moves := [] } }

/-- Witness for the amended C9 theorem: after the socket-8 rebind, the
grace fire captured with socket 7 takes no action. -/
theorem grace_timer_rebind_guard_witness :
    graceFire (getPreviousRoom [c9bRoom] 8 { roomId := "P9", userId := "u9" }).1
        "P9" "u9" 0 7 =
      ((getPreviousRoom [c9bRoom] 8 { roomId := "P9", userId := "u9" }).1, []) :=
  grace_timer_rebind_guard.2.2 [c9bRoom] "P9" "u9" 0 7 8 c9bRoom
    (mkPlayer "u9" 0 7 PlayerStatus.playing) rfl rfl (by decide)
